import Mathlib

set_option maxRecDepth 8192

/-!
Shallow embedding of the wireless membership and radio-pool subsystem of the
network-emulation testbed (nest).  The embedding follows the modern code path:

* `src/nest/topology/interface/wireless_interface.py`
  (class `WirelessInterface` and the module-level operations `create_ap`,
  `join_bss`, `join_adhoc_network`, `start_adhoc_network`,
  `check_network_and_leave`, `leave_wireless_network`), and
* `src/build/lib/nest/topology/wireless_topology_map.py`
  (class `WirelessTopologyMap`, the build copy of
  `nest/topology/wireless_topology_map.py` imported by the interface module).

The legacy module `src/nest/topology/wireless_interface.py` is additionally
embedded (suffix `_v0`) because `src/nest/topology/wifi_station.py` imports its
`join_bss`.

External engine commands (shell-level networking) have no effect on the
registry or the pool; the commands relevant to the temporal claims
(ad-hoc join and leave, and the blocking settle delays) are recorded in a
ghost `trace` field.  A ghost `active` field records the interfaces that have
been handed to a caller and not yet freed.  Neither ghost field influences any
branch of the embedded code.

Python-specific behaviour that the embedding preserves:

* `not t` on a 2-tuple `t` is always `False` (a non-empty tuple is truthy);
  the guards of `delete_ap`, `leave_bss` and `leave_ibss` test
  `not WirelessTopologyMap.is_ap(...)` (and friends) on such tuples, so those
  guards can never fire.  This is modelled by `pyTruthy`.
* iterating `None` raises `TypeError`; `delete_ap` iterates the result of
  `get_bss_stations`, which returns `None` when no BSS has the interface as
  its access point.
* the `for station in stations` loop of `delete_ap` iterates the live
  `bss["stations"]` list while `leave_bss` removes elements from it: the loop
  keeps an integer cursor into the mutating list (`delete_ap_loop`).
* `list.remove(x)` removes the first element equal to `x`
  (`List.erase`), `list[i] = v` raises `IndexError` out of range, and
  `dict[k] = v` replaces the binding of `k`.
-/

/-- Exceptions that the embedded code can raise. -/
inductive Err where
  | valueError (msg : String)
  | typeError
  | indexError
deriving DecidableEq, Repr

/-- Engine commands and settle delays recorded for the temporal claims:
the ad-hoc join and leave commands, the registration of a new IBSS entry in
the registry, and the blocking `time.sleep` calls. -/
inductive Event where
  | joinIbss (idx : Nat) (ssid : String) (frequency : Nat) (nodeId : String)
  | leaveIbss (idx : Nat) (nodeId : String)
  | registerIbss (ssid : String)
  | sleep (seconds : Nat)
deriving DecidableEq, Repr

/-- A wireless interface (class `WirelessInterface`).  The kernel name of the
interface is `wlan{idx}` where `idx` is the radio pool index; the embedding
stores the index directly, so the parse `int(self.id[4:])` of
`free_wireless_interface` is the field `idx`. -/
structure Wlan where
  idx : Nat
  nodeId : String
  macAddress : String
  wlanType : String
  ssid : String
  frequency : Option Nat
deriving DecidableEq, Repr

/-- A node (namespace) of the topology, identified by its id. -/
structure Node where
  id : String
  name : String
deriving DecidableEq, Repr

/-- A BSS entry of the wireless topology map. -/
structure BssEntry where
  ssid : String
  ap : Wlan
  stations : List Wlan
deriving DecidableEq, Repr

/-- An IBSS entry of the wireless topology map. -/
structure IbssEntry where
  ssid : String
  stations : List Wlan
deriving DecidableEq, Repr

/-- The process-wide mutable state: the radio pool
(`WirelessInterface.used_wireless_interfaces` together with the
`created_wireless_interfaces` flag and the configured
`max_wireless_interface_count`), the wireless topology map (`bss`, `ibss`,
`default_namespace_interfaces`), and the two ghost fields `active`
(interfaces handed to a caller and not yet freed) and `trace`
(recorded events). -/
structure NetState where
  maxCount : Nat
  created : Bool
  used : List Nat
  bss : List BssEntry
  ibss : List IbssEntry
  parked : List Wlan
  active : List Wlan
  trace : List Event
deriving DecidableEq, Repr

/-- Result of an embedded operation: Python exceptions do not roll back
mutations, so the error case also carries the state at the raise point. -/
abbrev Res (α : Type) := Except (Err × NetState) (α × NetState)

/-- Truthiness of a non-empty Python tuple: always true.  The guards
`if not WirelessTopologyMap.is_ap(...)` (and the station variants) test
`not` of such a tuple, so they never fire. -/
def pyTruthy (_ : Bool × Option Wlan) : Bool := true

/-- Interface type string used by `create_ap`. -/
def apTypeStr : String := "AP"

/-- Interface type string used by `join_bss`. -/
def managedStr : String := "managed"

/-- Interface type string used by the ad-hoc operations. -/
def ibssTypeStr : String := "ibss"

/-- Name of the configuration knob bounding the radio pool size. -/
def knobStr : String := "max_wireless_interface_count"

/-- Message of the pool-exhaustion error raised by `use_wireless_interface`;
it names the configuration knob `max_wireless_interface_count`. -/
def exhaustedMsg : String :=
  "Exceeded the maximum number of wireless interfaces. You might want to reset the max_wireless_interface_count config."

/-- Message prefix of the dead guard of `delete_ap`. -/
def notApMsg (nodeName : String) : String :=
  "Namespace " ++ nodeName ++ " is not an Access Point."

/-- Message of the dead guard of `leave_bss`. -/
def notBssStationMsg (nodeName : String) : String :=
  "Namespace " ++ nodeName ++ " is not a BSS station."

/-- Message of the dead guard of `leave_ibss`. -/
def notIbssStationMsg (nodeName : String) : String :=
  "Namespace " ++ nodeName ++ " is not an IBSS station."

/-- Message of the error raised by `leave_wireless_network` on an
unaffiliated node. -/
def notInNetworkMsg (nodeName : String) : String :=
  "Namespace with name " ++ nodeName ++ " is not part of a wireless network"

/-- Message raised by `join_bss` when an SSID target has no BSS. -/
def noBssMsg (ssid : String) : String :=
  "No BSS found with the SSID " ++ ssid

/-- Message raised by `join_bss` when the node target is not an AP. -/
def nodeNotApMsg (nodeName : String) : String :=
  "The specified node " ++ nodeName ++ " is not an Access Point."

/-- Message raised by `join_adhoc_network` when no IBSS has the SSID. -/
def noIbssMsg (ssid : String) : String :=
  "No ad hoc network found with the SSID " ++ ssid

/-- Message raised by `start_adhoc_network` when the SSID is taken. -/
def ibssExistsMsg (ssid : String) : String :=
  "An IBSS with SSID " ++ ssid ++ " already exists."

/-- MAC address reported by the engine for the interface `wlan{i}`
(`engine.get_mac_address`, deterministic per kernel radio). -/
def engineMacAddress (i : Nat) : String := "mac-wlan" ++ toString i

/-- Applies `f` to the first element satisfying `p` and keeps the rest,
the `for ... if ...: mutate; break` pattern of the registry mutators. -/
def updateFirst (p : α → Bool) (f : α → α) : List α → List α
  | [] => []
  | x :: xs => if p x then f x :: xs else x :: updateFirst p f xs

/-- Removes the first element satisfying `p`,
the `for ... if ...: list.remove(elem); break` pattern. -/
def removeFirst (p : α → Bool) : List α → List α
  | [] => []
  | x :: xs => if p x then xs else x :: removeFirst p xs

/-- Splits a list around its first element satisfying `p`. -/
def splitAtFirst (p : α → Bool) : List α → Option (List α × α × List α)
  | [] => none
  | x :: xs =>
      if p x then some ([], x, xs)
      else (splitAtFirst p xs).map (fun r => (x :: r.1, r.2.1, r.2.2))

namespace WirelessTopologyMap

/-- Registry mutator `create_ibss`: appends a new empty IBSS entry. -/
def create_ibss (ssid : String) (s : NetState) : NetState :=
  { s with ibss := s.ibss ++ [⟨ssid, []⟩] }

/-- Registry mutator `add_station_to_ibss`: appends the interface to the
station list of the first IBSS entry with the given SSID; silent no-op when
no entry matches. -/
def add_station_to_ibss (ssid : String) (wl : Wlan) (s : NetState) : NetState :=
  let upd := updateFirst (fun e => e.ssid == ssid)
    (fun e => { e with stations := e.stations ++ [wl] }) s.ibss
  { s with ibss := upd }

/-- Registry mutator `create_bss`: appends a new BSS entry with the given
access point and no stations. -/
def create_bss (ssid : String) (ap : Wlan) (s : NetState) : NetState :=
  { s with bss := s.bss ++ [⟨ssid, ap, []⟩] }

/-- Registry mutator `add_station_to_bss`: appends the interface to the
station list of the first BSS entry whose access point lives in the node
`apNodeId`; silent no-op when no entry matches. -/
def add_station_to_bss (apNodeId : String) (wl : Wlan) (s : NetState) : NetState :=
  let upd := updateFirst (fun e => e.ap.nodeId == apNodeId)
    (fun e => { e with stations := e.stations ++ [wl] }) s.bss
  { s with bss := upd }

/-- Registry mutator `remove_ibss`: removes the first IBSS entry with the
given SSID. -/
def remove_ibss (ssid : String) (s : NetState) : NetState :=
  { s with ibss := removeFirst (fun e => e.ssid == ssid) s.ibss }

/-- Registry mutator `remove_bss`: removes the first BSS entry whose access
point equals the given interface. -/
def remove_bss (ap : Wlan) (s : NetState) : NetState :=
  { s with bss := removeFirst (fun e => e.ap == ap) s.bss }

/-- Registry mutator `remove_station_from_ibss`: removes the interface from
the first IBSS entry containing it, and removes the IBSS entry (through
`remove_ibss`, a fresh scan by SSID) when its station list becomes empty. -/
def remove_station_from_ibss (wl : Wlan) (s : NetState) : NetState :=
  match splitAtFirst (fun e => e.stations.contains wl) s.ibss with
  | none => s
  | some (pre, e, post) =>
      let e' : IbssEntry := { e with stations := e.stations.erase wl }
      let s' := { s with ibss := pre ++ e' :: post }
      if e'.stations.isEmpty then remove_ibss e.ssid s' else s'

/-- Registry mutator `remove_station_from_bss`: removes the interface from
the first BSS entry containing it. -/
def remove_station_from_bss (wl : Wlan) (s : NetState) : NetState :=
  match splitAtFirst (fun e => e.stations.contains wl) s.bss with
  | none => s
  | some (pre, e, post) =>
      { s with bss := pre ++ { e with stations := e.stations.erase wl } :: post }

/-- Registry query `return_ap`: the access point of the first BSS entry with
the given SSID, `none` when no entry matches. -/
def return_ap (ssid : String) (s : NetState) : Option Wlan :=
  (s.bss.find? (fun e => e.ssid == ssid)).map (fun e => e.ap)

/-- Registry query `ibss_exists`. -/
def ibss_exists (ssid : String) (s : NetState) : Bool :=
  s.ibss.any (fun e => e.ssid == ssid)

/-- The interface component of the pair returned by `is_ap`: the access
point of the first BSS entry whose access point lives in the node. -/
def is_ap_q (nodeId : String) (s : NetState) : Option Wlan :=
  (s.bss.find? (fun e => e.ap.nodeId == nodeId)).map (fun e => e.ap)

/-- Registry query `is_ap`: returns the pair `(found, interface)`. -/
def is_ap (nodeId : String) (s : NetState) : Bool × Option Wlan :=
  ((is_ap_q nodeId s).isSome, is_ap_q nodeId s)

/-- The interface component of the pair returned by `is_bss_station`: the
first station interface, scanning BSS entries and their station lists in
order, that lives in the node. -/
def is_bss_station_q (nodeId : String) (s : NetState) : Option Wlan :=
  (s.bss.flatMap (fun e => e.stations)).find? (fun w => w.nodeId == nodeId)

/-- Registry query `is_bss_station`: returns the pair `(found, interface)`. -/
def is_bss_station (nodeId : String) (s : NetState) : Bool × Option Wlan :=
  ((is_bss_station_q nodeId s).isSome, is_bss_station_q nodeId s)

/-- The interface component of the pair returned by `is_ibss_station`. -/
def is_ibss_station_q (nodeId : String) (s : NetState) : Option Wlan :=
  (s.ibss.flatMap (fun e => e.stations)).find? (fun w => w.nodeId == nodeId)

/-- Registry query `is_ibss_station`: returns the pair `(found, interface)`. -/
def is_ibss_station (nodeId : String) (s : NetState) : Bool × Option Wlan :=
  ((is_ibss_station_q nodeId s).isSome, is_ibss_station_q nodeId s)

/-- Registry query `is_part_of_network`. -/
def is_part_of_network (nodeId : String) (s : NetState) : Bool :=
  (is_ap_q nodeId s).isSome || (is_bss_station_q nodeId s).isSome
    || (is_ibss_station_q nodeId s).isSome

/-- Registry query `get_bss_stations`: the station list of the first BSS
entry whose access point equals the given interface; falls through to `None`
when no entry matches. -/
def get_bss_stations (ap : Wlan) (s : NetState) : Option (List Wlan) :=
  (s.bss.find? (fun e => e.ap == ap)).map (fun e => e.stations)

/-- Registry mutator `move_to_def_namespace`: parks the interface in
`default_namespace_interfaces` under its kernel name (its pool index). -/
def move_to_def_namespace (wl : Wlan) (s : NetState) : NetState :=
  { s with parked := wl :: removeFirst (fun w => w.idx == wl.idx) s.parked }

end WirelessTopologyMap

/-- Scan of the `for i in range(len(used)): if used[i] == 0` loop of
`use_wireless_interface`, returning the first index holding `0`. -/
def findFreeIdxAux : List Nat → Nat → Option Nat
  | [], _ => none
  | v :: rest, i => if v == 0 then some i else findFreeIdxAux rest (i + 1)

/-- Index of the first free slot of the pool bitmap. -/
def findFreeIdx (l : List Nat) : Option Nat := findFreeIdxAux l 0

namespace WirelessInterface

/-- Class method `create_wireless_interfaces`: provisions
`max_wireless_interface_count` radios and resets the bitmap to all-free. -/
def create_wireless_interfaces (s : NetState) : NetState :=
  { s with used := List.replicate s.maxCount 0, created := true }

/-- Class method `use_wireless_interface`: initializes the pool on first use,
acquires the lowest-index free slot (raising the pool-exhaustion error when
none is free), and returns either the rehydrated parked interface of that
slot with its fields updated, or a freshly constructed interface. -/
def use_wireless_interface (nodeId wlanType ssid : String) (frequency : Option Nat)
    (s : NetState) : Res Wlan :=
  let s := if s.created = false then create_wireless_interfaces s else s
  match findFreeIdx s.used with
  | none => .error (Err.valueError exhaustedMsg, s)
  | some i =>
      let s := { s with used := s.used.set i 1 }
      match s.parked.find? (fun w => w.idx == i) with
      | some w0 =>
          let w := { w0 with nodeId := nodeId, wlanType := wlanType, ssid := ssid, frequency := frequency }
          let pk := removeFirst (fun w => w.idx == i) s.parked
          .ok (w, { s with parked := pk, active := s.active ++ [w] })
      | none =>
          let w : Wlan := ⟨i, nodeId, engineMacAddress i, wlanType, ssid, frequency⟩
          .ok (w, { s with active := s.active ++ [w] })

/-- Method `free_wireless_interface`: marks the pool slot free
(`used_wireless_interfaces[index] = 0`, an `IndexError` out of range) and
parks the interface in the default namespace. -/
def free_wireless_interface (wl : Wlan) (s : NetState) : Res Unit :=
  if wl.idx < s.used.length then
    let s := { s with used := s.used.set wl.idx 0 }
    let s := WirelessTopologyMap.move_to_def_namespace wl s
    .ok ((), { s with active := s.active.erase wl })
  else .error (Err.indexError, s)

/-- Method `leave_bss`: the guard tests `not` of the tuple returned by
`is_bss_station` and hence never fires; the interface is removed from its
BSS entry and freed. -/
def leave_bss (wl : Wlan) (s : NetState) : Res Unit :=
  if pyTruthy (WirelessTopologyMap.is_bss_station wl.nodeId s) = false then
    .error (Err.valueError (notBssStationMsg wl.nodeId), s)
  else
    free_wireless_interface wl (WirelessTopologyMap.remove_station_from_bss wl s)

/-- Method `leave_ibss`: the guard tests `not` of the tuple returned by
`is_ibss_station` and hence never fires; the ad-hoc leave command is issued,
the interface is removed from its IBSS entry and freed. -/
def leave_ibss (wl : Wlan) (s : NetState) : Res Unit :=
  if pyTruthy (WirelessTopologyMap.is_ibss_station wl.nodeId s) = false then
    .error (Err.valueError (notIbssStationMsg wl.nodeId), s)
  else
    let s := { s with trace := s.trace ++ [Event.leaveIbss wl.idx wl.nodeId] }
    free_wireless_interface wl (WirelessTopologyMap.remove_station_from_ibss wl s)

/-- The `for station in stations` loop of `delete_ap`.  Python iterates the
live `bss["stations"]` list with an internal cursor while `leave_bss`
removes the visited station from that same list, so elements can be
skipped; the loop is modelled with the cursor `i` re-reading the live list,
with enough fuel for the at most `length + 1` cursor probes. -/
def delete_ap_loop (wl : Wlan) : Nat → Nat → NetState → Res Unit
  | 0, _, s => .ok ((), s)
  | fuel + 1, i, s =>
      match WirelessTopologyMap.get_bss_stations wl s with
      | none => .ok ((), s)
      | some cur =>
          if h : i < cur.length then
            match leave_bss (cur.get ⟨i, h⟩) s with
            | .error e => .error e
            | .ok (_, s') => delete_ap_loop wl fuel (i + 1) s'
          else .ok ((), s)

/-- Method `delete_ap`: the guard tests `not` of the tuple returned by
`is_ap` and hence never fires; the station loop runs over the live station
list (`TypeError` when `get_bss_stations` falls through to `None`), the
interface role is reverted, the BSS entry is removed and the interface
freed. -/
def delete_ap (wl : Wlan) (nodeName : String) (s : NetState) : Res Unit :=
  if pyTruthy (WirelessTopologyMap.is_ap wl.nodeId s) = false then
    .error (Err.valueError (notApMsg nodeName), s)
  else
    match WirelessTopologyMap.get_bss_stations wl s with
    | none => .error (Err.typeError, s)
    | some stations =>
        match delete_ap_loop wl (stations.length + 1) 0 s with
        | .error e => .error e
        | .ok (_, s) =>
            free_wireless_interface wl (WirelessTopologyMap.remove_bss wl s)

end WirelessInterface

/-- Module function `leave_wireless_network`: dispatches on the node's
classification (the boolean of each registry tuple), raising on an
unaffiliated node. -/
def leave_wireless_network (node : Node) (s : NetState) : Res Unit :=
  match WirelessTopologyMap.is_ap_q node.id s with
  | some intf => WirelessInterface.delete_ap intf node.name s
  | none =>
    match WirelessTopologyMap.is_bss_station_q node.id s with
    | some intf => WirelessInterface.leave_bss intf s
    | none =>
      match WirelessTopologyMap.is_ibss_station_q node.id s with
      | some intf => WirelessInterface.leave_ibss intf s
      | none => .error (Err.valueError (notInNetworkMsg node.name), s)

/-- Module function `check_network_and_leave`: the auto-leave healing
policy. -/
def check_network_and_leave (node : Node) (s : NetState) : Res Unit :=
  if WirelessTopologyMap.is_part_of_network node.id s then
    leave_wireless_network node s
  else .ok ((), s)

/-- Module function `create_ap`: auto-leave, acquire a radio as an AP,
render the hostapd configuration and start the AP daemon (external), and
register the new BSS entry. -/
def create_ap (node : Node) (ssid : String) (s : NetState) : Res Wlan :=
  match check_network_and_leave node s with
  | .error e => .error e
  | .ok (_, s) =>
      match WirelessInterface.use_wireless_interface node.id apTypeStr ssid none s with
      | .error e => .error e
      | .ok (wl, s) => .ok (wl, WirelessTopologyMap.create_bss ssid wl s)

/-- Polymorphic access-point target of `join_bss`: a node reference or a
bare SSID string. -/
inductive ApRef where
  | byNode (node : Node)
  | bySsid (ssid : String)
deriving DecidableEq, Repr

/-- Per-node loop of `join_bss`: auto-leave, acquire a managed radio, issue
the external association command, and register the station under the first
BSS entry whose access point lives in the AP's node. -/
def join_bss_loop (apIntf : Wlan) : List Node → NetState → Res (List Wlan)
  | [], s => .ok ([], s)
  | node :: rest, s =>
      match check_network_and_leave node s with
      | .error e => .error e
      | .ok (_, s) =>
          match WirelessInterface.use_wireless_interface node.id managedStr
              apIntf.ssid none s with
          | .error e => .error e
          | .ok (wl, s) =>
              let s := WirelessTopologyMap.add_station_to_bss apIntf.nodeId wl s
              match join_bss_loop apIntf rest s with
              | .error e => .error e
              | .ok (wlans, s) => .ok (wl :: wlans, s)

/-- Module function `join_bss`: resolves the polymorphic target (an SSID is
looked up through `return_ap`, a node must be classified as an AP), writes
the supplicant credential file (external), joins each node in order, and
observes the settle delay. -/
def join_bss (nodes : List Node) (target : ApRef) (s : NetState) : Res (List Wlan) :=
  match target with
  | .bySsid ssid =>
      match WirelessTopologyMap.return_ap ssid s with
      | none => .error (Err.valueError (noBssMsg ssid), s)
      | some apIntf =>
          match join_bss_loop apIntf nodes s with
          | .error e => .error e
          | .ok (wlans, s) => .ok (wlans, { s with trace := s.trace ++ [Event.sleep 2] })
  | .byNode apNode =>
      match WirelessTopologyMap.is_ap_q apNode.id s with
      | none => .error (Err.valueError (nodeNotApMsg apNode.name), s)
      | some apIntf =>
          match join_bss_loop apIntf nodes s with
          | .error e => .error e
          | .ok (wlans, s) => .ok (wlans, { s with trace := s.trace ++ [Event.sleep 2] })

/-- Per-node loop shared by `join_adhoc_network` and the tail of
`start_adhoc_network`: auto-leave, acquire an ibss radio, set the role and
issue the ad-hoc join command, register the station. -/
def adhoc_join_loop (ssid : String) (freq : Nat) : List Node → NetState → Res (List Wlan)
  | [], s => .ok ([], s)
  | node :: rest, s =>
      match check_network_and_leave node s with
      | .error e => .error e
      | .ok (_, s) =>
          match WirelessInterface.use_wireless_interface node.id ibssTypeStr
              ssid (some freq) s with
          | .error e => .error e
          | .ok (wl, s) =>
              let s := { s with trace := s.trace ++ [Event.joinIbss wl.idx ssid freq wl.nodeId] }
              let s := WirelessTopologyMap.add_station_to_ibss ssid wl s
              match adhoc_join_loop ssid freq rest s with
              | .error e => .error e
              | .ok (ws, s) => .ok (wl :: ws, s)

/-- Module function `join_adhoc_network`: requires an existing IBSS, joins
each node in order and observes the settle delay. -/
def join_adhoc_network (nodes : List Node) (ssid : String) (freq : Nat)
    (s : NetState) : Res (List Wlan) :=
  if WirelessTopologyMap.ibss_exists ssid s = false then
    .error (Err.valueError (noIbssMsg ssid), s)
  else
    match adhoc_join_loop ssid freq nodes s with
    | .error e => .error e
    | .ok (ws, s) => .ok (ws, { s with trace := s.trace ++ [Event.sleep 2] })

/-- Module function `start_adhoc_network`: fails when the SSID is taken,
returns `None` on an empty node list, forms the cell with the first node
(join command, new IBSS entry, first station, long settle delay) and then
joins the remaining nodes in order. -/
def start_adhoc_network (nodes : List Node) (ssid : String) (freq : Nat)
    (s : NetState) : Res (Option (List Wlan)) :=
  if WirelessTopologyMap.ibss_exists ssid s then
    .error (Err.valueError (ibssExistsMsg ssid), s)
  else
    match nodes with
    | [] => .ok (none, s)
    | n0 :: rest =>
        match check_network_and_leave n0 s with
        | .error e => .error e
        | .ok (_, s) =>
            match WirelessInterface.use_wireless_interface n0.id ibssTypeStr
                ssid (some freq) s with
            | .error e => .error e
            | .ok (wl, s) =>
                let s := { s with trace := s.trace ++ [Event.joinIbss wl.idx ssid freq wl.nodeId] }
                let s := WirelessTopologyMap.create_ibss ssid s
                let s := { s with trace := s.trace ++ [Event.registerIbss ssid] }
                let s := WirelessTopologyMap.add_station_to_ibss ssid wl s
                let s := { s with trace := s.trace ++ [Event.sleep 20] }
                match adhoc_join_loop ssid freq rest s with
                | .error e => .error e
                | .ok (ws, s) =>
                    .ok (some (wl :: ws), { s with trace := s.trace ++ [Event.sleep 2] })

/-- Legacy `use_wireless_interface`
(`src/nest/topology/wireless_interface.py`): as the modern one but without
the parking side table, so a fresh interface object is always constructed. -/
def use_wireless_interface_v0 (nodeId wlanType ssid : String) (frequency : Option Nat)
    (s : NetState) : Res Wlan :=
  let s := if s.created = false then WirelessInterface.create_wireless_interfaces s else s
  match findFreeIdx s.used with
  | none => .error (Err.valueError exhaustedMsg, s)
  | some i =>
      let s := { s with used := s.used.set i 1 }
      let w : Wlan := ⟨i, nodeId, engineMacAddress i, wlanType, ssid, frequency⟩
      .ok (w, { s with active := s.active ++ [w] })

/-- Legacy `free_wireless_interface`: marks the slot free without parking. -/
def free_wireless_interface_v0 (wl : Wlan) (s : NetState) : Res Unit :=
  if wl.idx < s.used.length then
    .ok ((), { s with used := s.used.set wl.idx 0, active := s.active.erase wl })
  else .error (Err.indexError, s)

/-- Legacy `leave_bss` (dead guard, no parking). -/
def leave_bss_v0 (wl : Wlan) (s : NetState) : Res Unit :=
  if pyTruthy (WirelessTopologyMap.is_bss_station wl.nodeId s) = false then
    .error (Err.valueError (notBssStationMsg wl.nodeId), s)
  else
    free_wireless_interface_v0 wl (WirelessTopologyMap.remove_station_from_bss wl s)

/-- Legacy `leave_ibss` (dead guard, no parking). -/
def leave_ibss_v0 (wl : Wlan) (s : NetState) : Res Unit :=
  if pyTruthy (WirelessTopologyMap.is_ibss_station wl.nodeId s) = false then
    .error (Err.valueError (notIbssStationMsg wl.nodeId), s)
  else
    let s := { s with trace := s.trace ++ [Event.leaveIbss wl.idx wl.nodeId] }
    free_wireless_interface_v0 wl (WirelessTopologyMap.remove_station_from_ibss wl s)

/-- Station loop of the legacy `delete_ap` (same live-list iteration). -/
def delete_ap_loop_v0 (wl : Wlan) : Nat → Nat → NetState → Res Unit
  | 0, _, s => .ok ((), s)
  | fuel + 1, i, s =>
      match WirelessTopologyMap.get_bss_stations wl s with
      | none => .ok ((), s)
      | some cur =>
          if h : i < cur.length then
            match leave_bss_v0 (cur.get ⟨i, h⟩) s with
            | .error e => .error e
            | .ok (_, s') => delete_ap_loop_v0 wl fuel (i + 1) s'
          else .ok ((), s)

/-- Legacy `delete_ap`: as the modern one, except that the BSS entry is
never removed from the registry (`remove_bss` is not called). -/
def delete_ap_v0 (wl : Wlan) (s : NetState) : Res Unit :=
  if pyTruthy (WirelessTopologyMap.is_ap wl.nodeId s) = false then
    .error (Err.valueError (notApMsg wl.nodeId), s)
  else
    match WirelessTopologyMap.get_bss_stations wl s with
    | none => .error (Err.typeError, s)
    | some stations =>
        match delete_ap_loop_v0 wl (stations.length + 1) 0 s with
        | .error e => .error e
        | .ok (_, s) => free_wireless_interface_v0 wl s

/-- Legacy class method `leave_network`, dispatching by node id. -/
def leave_network_v0 (nodeId : String) (s : NetState) : Res Unit :=
  match WirelessTopologyMap.is_ap_q nodeId s with
  | some intf => delete_ap_v0 intf s
  | none =>
    match WirelessTopologyMap.is_bss_station_q nodeId s with
    | some intf => leave_bss_v0 intf s
    | none =>
      match WirelessTopologyMap.is_ibss_station_q nodeId s with
      | some intf => leave_ibss_v0 intf s
      | none => .error (Err.valueError (notInNetworkMsg nodeId), s)

/-- Legacy `check_network_and_leave`, taking the node id. -/
def check_network_and_leave_v0 (nodeId : String) (s : NetState) : Res Unit :=
  if WirelessTopologyMap.is_part_of_network nodeId s then
    leave_network_v0 nodeId s
  else .ok ((), s)

/-- Per-node loop of the legacy `join_bss` (no settle delay in the legacy
module). -/
def join_bss_loop_v0 (apIntf : Wlan) : List Node → NetState → Res (List Wlan)
  | [], s => .ok ([], s)
  | node :: rest, s =>
      match check_network_and_leave_v0 node.id s with
      | .error e => .error e
      | .ok (_, s) =>
          match use_wireless_interface_v0 node.id managedStr apIntf.ssid none s with
          | .error e => .error e
          | .ok (wl, s) =>
              let s := WirelessTopologyMap.add_station_to_bss apIntf.nodeId wl s
              match join_bss_loop_v0 apIntf rest s with
              | .error e => .error e
              | .ok (wlans, s) => .ok (wl :: wlans, s)

/-- The empty string, Python's sentinel for an unset IP address. -/
def emptyStr : String := ""

/-- Message raised by `WifiStation.join_bss` on an inactive access point. -/
def apNotActiveMsg : String :=
  "The Access Point that you have specified is not active."

/-- Message raised by `WifiStation.join_bss` when the IP address of the
station has not been set. -/
def ipNotSetMsg (stationId : String) : String :=
  "IP address of the station " ++ stationId ++ " is not set."

/-- Message of the unpacking error of `[self._sta_wlan] = join_bss(...)`
when the callee does not return a one-element list. -/
def unpackMsg : String := "expected a single wireless interface to unpack"

/-- A wifi station facade (`src/nest/topology/wifi_station.py`): a node with
an optional IP address (the empty string when unset). -/
structure WifiStation where
  id : String
  name : String
  address : String
deriving DecidableEq, Repr

/-- Modelled from the spec: the class `AccessPoint` of
`nest/topology/access_point.py` is absent from the source tree (only a build
copy without the `active` attribute exists).  Per the spec, an entity facade
owns a single radio resource at a time and exposes its activation state, so
the model carries the activation flag and the wireless interface installed
by `start`, whose `ssid`, `mac_address` and `node_id` the facade exposes. -/
structure AccessPoint where
  active : Bool
  apWlan : Wlan
deriving DecidableEq, Repr

/-- Method `WifiStation.join_bss`: requires an active access point and an
assigned IP address before delegating to the legacy module-level `join_bss`
with the station as the single node. -/
def wifi_sta_join_bss (sta : WifiStation) (acc : AccessPoint) (s : NetState) : Res Wlan :=
  if acc.active = false then .error (Err.valueError apNotActiveMsg, s)
  else if sta.address == emptyStr then .error (Err.valueError (ipNotSetMsg sta.id), s)
  else
    match join_bss_loop_v0 acc.apWlan [⟨sta.id, sta.name⟩] s with
    | .error e => .error e
    | .ok ([w], s') => .ok (w, s')
    | .ok (_, s') => .error (Err.valueError unpackMsg, s')

/-- A user-level operation of the membership state machine. -/
inductive WOp where
  | mkAp (node : Node) (ssid : String)
  | joinB (nodes : List Node) (target : ApRef)
  | startI (nodes : List Node) (ssid : String) (freq : Nat)
  | joinI (nodes : List Node) (ssid : String) (freq : Nat)
deriving DecidableEq, Repr

/-- Runs one operation, keeping only the successor state. -/
def runOp (s : NetState) : WOp → Except (Err × NetState) NetState
  | .mkAp n ssid => (create_ap n ssid s).map (fun r => r.2)
  | .joinB ns t => (join_bss ns t s).map (fun r => r.2)
  | .startI ns ssid f => (start_adhoc_network ns ssid f s).map (fun r => r.2)
  | .joinI ns ssid f => (join_adhoc_network ns ssid f s).map (fun r => r.2)

/-- Runs a sequence of operations, stopping at the first failure. -/
def runOps : NetState → List WOp → Except (Err × NetState) NetState
  | s, [] => .ok s
  | s, op :: rest =>
      match runOp s op with
      | .error e => .error e
      | .ok s' => runOps s' rest

/-- The wholly fresh state: pool not yet provisioned, registry empty. -/
def freshState (c : Nat) : NetState := ⟨c, false, [], [], [], [], [], []⟩

/-- A fresh state whose pool has been provisioned: all `c` slots free,
registry empty. -/
def initState (c : Nat) : NetState := ⟨c, true, List.replicate c 0, [], [], [], [], []⟩

/-- All interfaces recorded in the registry: every access point and every
station of every BSS entry, and every station of every IBSS entry. -/
def registryWlans (s : NetState) : List Wlan :=
  s.bss.flatMap (fun e => e.ap :: e.stations) ++ s.ibss.flatMap (fun e => e.stations)

/-- Well-formedness of the shared state, preserved by every successful
operation from a fresh state:
pairwise-distinct pool indices of the handed-out interfaces, handed-out
interfaces hold slots marked used, used slots belong to handed-out
interfaces, the bitmap is zero-one valued, the used-count equals the number
of handed-out interfaces, the registry lists each interface at most once and
only handed-out ones, parked interfaces are keyed by their own index, and an
unprovisioned pool is empty all around. -/
def WF (s : NetState) : Prop :=
  List.Pairwise (fun a b => a.idx ≠ b.idx) s.active
    ∧ (∀ wl ∈ s.active, wl.idx < s.used.length ∧ s.used[wl.idx]? = some 1)
    ∧ (∀ i ∈ List.range s.used.length, s.used[i]? = some 1 →
        ∃ wl ∈ s.active, wl.idx = i)
    ∧ (∀ v ∈ s.used, v = 0 ∨ v = 1)
    ∧ s.used.count 1 = s.active.length
    ∧ (registryWlans s).Nodup
    ∧ (∀ wl ∈ registryWlans s, wl ∈ s.active)
    ∧ (s.created = false → s.used = [] ∧ s.active = [] ∧ s.bss = [] ∧ s.ibss = [])

/-- Example node used by concrete witnesses. -/
def exNodeA : Node := ⟨"na", "nodeA"⟩

/-- Example node used by concrete witnesses. -/
def exNodeB : Node := ⟨"nb", "nodeB"⟩

/-- Example node used by concrete witnesses. -/
def exNodeC : Node := ⟨"nc", "nodeC"⟩

/-- Example SSID used by concrete witnesses. -/
def exSsidX : String := "X"

/-- Example SSID used by concrete witnesses. -/
def exSsidNet : String := "net1"

/-- Example channel frequency used by concrete witnesses. -/
def exFreq : Nat := 2412

/-- A stray interface sitting in a node that is not registered as the access
point of any BSS entry of `initState 1`. -/
def exWlanStray : Wlan := ⟨0, exNodeA.id, engineMacAddress 0, apTypeStr, exSsidX, none⟩

/-- An ibss-typed interface sitting in node `exNodeA`, used by witnesses. -/
def exWlanSta : Wlan := ⟨0, exNodeA.id, engineMacAddress 0, ibssTypeStr, exSsidNet, some exFreq⟩

/-- An AP-typed interface sitting in node `exNodeB`, used by witnesses. -/
def exWlanAp : Wlan := ⟨1, exNodeB.id, engineMacAddress 1, apTypeStr, exSsidX, none⟩

/-- A state with one single-station IBSS entry, used by the witness of the
station-removal claim. -/
def exStateC5 : NetState :=
  { initState 2 with ibss := [⟨exSsidNet, [exWlanSta]⟩], used := [1, 0],
                     active := [exWlanSta] }

/-- A state in which `exNodeA` is a station of the IBSS `net1` and `exNodeB`
is the access point of the BSS `X`. -/
def exStateC6 : NetState :=
  { initState 2 with bss := [⟨exSsidX, exWlanAp, []⟩],
                     ibss := [⟨exSsidNet, [exWlanSta]⟩],
                     used := [1, 1], active := [exWlanSta, exWlanAp] }

/-- A wifi station facade with no IP address set, used by witnesses. -/
def exStation : WifiStation := ⟨"ns", "sta1", emptyStr⟩

/-- An inactive access point facade, used by witnesses. -/
def exAccessPointInactive : AccessPoint := ⟨false, exWlanAp⟩

/-- An active access point facade, used by witnesses. -/
def exAccessPointActive : AccessPoint := ⟨true, exWlanAp⟩

/-- The second interface handed out by the concrete ad-hoc formation run. -/
def exWlanSta2 : Wlan := ⟨1, exNodeB.id, engineMacAddress 1, ibssTypeStr, exSsidNet, some exFreq⟩

/-- The interfaces returned by the concrete ad-hoc formation run of the
ordering witness. -/
def exWlansC8 : List Wlan := [exWlanSta, exWlanSta2]

/-- The final state of the concrete ad-hoc formation run of the ordering
witness. -/
def exStateC8 : NetState :=
  ⟨2, true, [1, 1], [], [⟨exSsidNet, [exWlanSta, exWlanSta2]⟩], [],
   [exWlanSta, exWlanSta2],
   [Event.joinIbss 0 exSsidNet exFreq exNodeA.id, Event.registerIbss exSsidNet,
    Event.sleep 20, Event.joinIbss 1 exSsidNet exFreq exNodeB.id, Event.sleep 2]⟩

/-- The operation sequence of the pool-invariant witness: create an access
point in one node, then join a second node to its BSS by SSID. -/
def exOpsC4 : List WOp :=
  [WOp.mkAp exNodeA exSsidX, WOp.joinB [exNodeB] (ApRef.bySsid exSsidX)]

/-- The AP interface produced by the witness run of the pool invariant. -/
def exWlanApC4 : Wlan := ⟨0, exNodeA.id, engineMacAddress 0, apTypeStr, exSsidX, none⟩

/-- The station interface produced by the witness run of the pool
invariant. -/
def exWlanStaC4 : Wlan := ⟨1, exNodeB.id, engineMacAddress 1, managedStr, exSsidX, none⟩

/-- The final state of the witness run of the pool invariant. -/
def exStateC4 : NetState :=
  ⟨2, true, [1, 1], [⟨exSsidX, exWlanApC4, [exWlanStaC4]⟩], [], [],
   [exWlanApC4, exWlanStaC4], [Event.sleep 2]⟩

/-- No ad-hoc join command occurs in the event list. -/
def noJoinEv (t : List Event) : Prop :=
  ∀ i sd f nd, Event.joinIbss i sd f nd ∉ t

/-!  Generic lemmas about the loop-with-break helpers. -/

theorem splitAtFirst_some {α : Type} {p : α → Bool} :
    ∀ {l pre post : List α} {x : α}, splitAtFirst p l = some (pre, x, post) →
      l = pre ++ x :: post ∧ p x = true ∧ ∀ y ∈ pre, p y = false := by
  intro l
  induction l with
  | nil => intro pre post x h; simp [splitAtFirst] at h
  | cons a t ih =>
      intro pre post x h
      by_cases hp : p a
      · have he : splitAtFirst p (a :: t) = some ([], a, t) := by
          simp [splitAtFirst, hp]
        rw [he] at h
        simp only [Option.some.injEq, Prod.mk.injEq] at h
        obtain ⟨rfl, rfl, rfl⟩ := h
        simp [hp]
      · have he : splitAtFirst p (a :: t)
            = (splitAtFirst p t).map (fun r => (a :: r.1, r.2.1, r.2.2)) := by
          simp [splitAtFirst, hp]
        rw [he] at h
        rcases hmap : splitAtFirst p t with _ | ⟨⟨pre', x', post'⟩⟩
        · rw [hmap] at h; simp at h
        · rw [hmap] at h
          simp only [Option.map_some', Option.some.injEq, Prod.mk.injEq] at h
          obtain ⟨h1, h2, h3⟩ := h
          obtain ⟨hrl, hrx, hrp⟩ := ih hmap
          subst h2; subst h3; subst h1
          subst hrl
          refine ⟨by simp, hrx, ?_⟩
          intro y hy
          rcases List.mem_cons.mp hy with hya | hyp
          · subst hya; simpa using hp
          · exact hrp y hyp

theorem splitAtFirst_none_iff {α : Type} {p : α → Bool} :
    ∀ {l : List α}, splitAtFirst p l = none ↔ ∀ y ∈ l, p y = false := by
  intro l
  induction l with
  | nil => simp [splitAtFirst]
  | cons a t ih =>
      by_cases hp : p a
      · simp [splitAtFirst, hp]
      · simp [splitAtFirst, hp, Option.map_eq_none', ih]

theorem splitAtFirst_app {α : Type} {p : α → Bool} :
    ∀ {pre : List α} {x : α} (post : List α), (∀ y ∈ pre, p y = false) → p x = true →
      splitAtFirst p (pre ++ x :: post) = some (pre, x, post) := by
  intro pre
  induction pre with
  | nil => intro x post _ hx; simp [splitAtFirst, hx]
  | cons a t ih =>
      intro x post hpre hx
      have ha : p a = false := hpre a (by simp)
      have ht : ∀ y ∈ t, p y = false := fun y hy => hpre y (by simp [hy])
      simp [splitAtFirst, ha, ih post ht hx]

theorem updateFirst_app {α : Type} {p : α → Bool} {f : α → α} :
    ∀ {pre : List α} {x : α} (post : List α), (∀ y ∈ pre, p y = false) → p x = true →
      updateFirst p f (pre ++ x :: post) = pre ++ f x :: post := by
  intro pre
  induction pre with
  | nil => intro x post _ hx; simp [updateFirst, hx]
  | cons a t ih =>
      intro x post hpre hx
      have ha : p a = false := hpre a (by simp)
      have ht : ∀ y ∈ t, p y = false := fun y hy => hpre y (by simp [hy])
      simp [updateFirst, ha, ih post ht hx]

theorem updateFirst_none {α : Type} {p : α → Bool} {f : α → α} :
    ∀ {l : List α}, (∀ y ∈ l, p y = false) → updateFirst p f l = l := by
  intro l
  induction l with
  | nil => intro; rfl
  | cons a t ih =>
      intro h
      have ha : p a = false := h a (by simp)
      simp [updateFirst, ha, ih (fun y hy => h y (by simp [hy]))]

theorem removeFirst_app {α : Type} {p : α → Bool} :
    ∀ {pre : List α} {x : α} (post : List α), (∀ y ∈ pre, p y = false) → p x = true →
      removeFirst p (pre ++ x :: post) = pre ++ post := by
  intro pre
  induction pre with
  | nil => intro x post _ hx; simp [removeFirst, hx]
  | cons a t ih =>
      intro x post hpre hx
      have ha : p a = false := hpre a (by simp)
      have ht : ∀ y ∈ t, p y = false := fun y hy => hpre y (by simp [hy])
      simp [removeFirst, ha, ih post ht hx]

theorem removeFirst_none {α : Type} {p : α → Bool} :
    ∀ {l : List α}, (∀ y ∈ l, p y = false) → removeFirst p l = l := by
  intro l
  induction l with
  | nil => intro; rfl
  | cons a t ih =>
      intro h
      have ha : p a = false := h a (by simp)
      simp [removeFirst, ha, ih (fun y hy => h y (by simp [hy]))]

theorem removeFirst_sublist {α : Type} (p : α → Bool) :
    ∀ (l : List α), List.Sublist (removeFirst p l) l := by
  intro l
  induction l with
  | nil => simp [removeFirst]
  | cons a t ih =>
      by_cases hp : p a
      · simpa [removeFirst, hp] using List.sublist_cons_self a t
      · simpa [removeFirst, hp] using List.Sublist.cons₂ a ih

theorem updateFirst_sublist_stations {p : BssEntry → Bool} {wl : Wlan} :
    ∀ l : List BssEntry,
      List.Sublist (l.flatMap (fun e => e.ap :: e.stations))
        ((updateFirst p (fun e => { e with stations := e.stations ++ [wl] }) l).flatMap
          (fun e => e.ap :: e.stations)) := by
  intro l
  induction l with
  | nil => simp [updateFirst]
  | cons a t ih =>
      by_cases hp : p a
      · simp only [updateFirst, hp, if_true, List.flatMap_cons]
        apply List.Sublist.append
        · refine List.Sublist.cons₂ _ ?_
          exact (List.sublist_append_left a.stations [wl])
        · exact List.Sublist.refl _
      · simp only [updateFirst, hp, if_false, List.flatMap_cons]
        exact List.Sublist.append (List.Sublist.refl _) ih

/-!  Scan of the pool bitmap. -/

theorem findFreeIdxAux_shift :
    ∀ (l : List Nat) (b : Nat),
      findFreeIdxAux l b = (findFreeIdxAux l 0).map (fun j => j + b) := by
  intro l
  induction l with
  | nil => intro b; rfl
  | cons v t ih =>
      intro b
      by_cases hv : v == 0
      · simp [findFreeIdxAux, hv]
      · simp only [findFreeIdxAux, hv, Bool.false_eq_true, if_false]
        rw [ih (b + 1), ih 1, Option.map_map]
        rcases findFreeIdxAux t 0 with _ | j
        · rfl
        · simp [Function.comp]
          omega

theorem findFreeIdx_cons (v : Nat) (t : List Nat) :
    findFreeIdx (v :: t) =
      if v = 0 then some 0 else (findFreeIdx t).map (fun j => j + 1) := by
  by_cases hv : v = 0
  · simp [findFreeIdx, findFreeIdxAux, hv]
  · simp only [findFreeIdx, findFreeIdxAux, hv, beq_iff_eq, if_false]
    exact findFreeIdxAux_shift t 1

theorem findFreeIdx_none_iff :
    ∀ {l : List Nat}, findFreeIdx l = none ↔ ∀ v ∈ l, v ≠ 0 := by
  intro l
  induction l with
  | nil => simp [findFreeIdx, findFreeIdxAux]
  | cons v t ih =>
      rw [findFreeIdx_cons]
      by_cases hv : v = 0
      · simp [hv]
      · simp [hv, Option.map_eq_none', ih]

theorem findFreeIdx_some :
    ∀ {l : List Nat} {j : Nat}, findFreeIdx l = some j →
      l[j]? = some 0 ∧ ∀ k, k < j → l[k]? ≠ some 0 := by
  intro l
  induction l with
  | nil => intro j h; simp [findFreeIdx, findFreeIdxAux] at h
  | cons v t ih =>
      intro j h
      rw [findFreeIdx_cons] at h
      by_cases hv : v = 0
      · simp [hv] at h
        subst h
        simp [hv]
      · simp only [hv, if_false, Option.map_eq_some'] at h
        obtain ⟨j', hj', rfl⟩ := h
        obtain ⟨h1, h2⟩ := ih hj'
        constructor
        · simpa using h1
        · intro k hk
          match k with
          | 0 => simpa using hv
          | k' + 1 =>
              have : k' < j' := by omega
              simpa using h2 k' this

theorem findFreeIdx_isSome_of_zero :
    ∀ {l : List Nat} {i : Nat}, l[i]? = some 0 → ∃ j, findFreeIdx l = some j := by
  intro l i h
  rcases hf : findFreeIdx l with _ | j
  · exfalso
    have hall := findFreeIdx_none_iff.mp hf
    have hm : (0 : Nat) ∈ l := by
      have := List.getElem?_eq_some_iff.mp h
      obtain ⟨hlt, hget⟩ := this
      exact hget ▸ List.getElem_mem hlt
    exact hall 0 hm rfl
  · exact ⟨j, rfl⟩

/-!  Claim C1. -/

/-- C1: the spec says `stopAP` on an interface whose node is not an access
point fails with `NotAnAccessPoint`; the code instead reaches the station
loop, because the guard tests `not` of the 2-tuple returned by `is_ap`,
which is always truthy, and crashes with `TypeError` iterating the `None`
returned by `get_bss_stations` — with no station disconnection, no registry
mutation and no pool release (the raise-time state is the input state).
This evaluates `delete_ap` at such an input. -/
theorem c1_delete_ap_nonap_typeerror :
    WirelessInterface.delete_ap exWlanStray exNodeA.name (initState 1)
      = .error (Err.typeError, initState 1) := rfl

/-!  Claim C3. -/

/-- C3: on a provisioned pool, `use_wireless_interface` scans the bitmap in
index order: when a free slot exists it returns an interface occupying the
lowest-index free slot and marks exactly that slot used; when no slot is
free it raises the pool-exhaustion `ValueError`, whose message names the
`max_wireless_interface_count` configuration knob, with the state (hence
the bitmap) unchanged. -/
theorem c3_acquire_lowest_free (s : NetState) (nid ty sd : String) (fr : Option Nat)
    (hc : s.created = true) :
    (∀ j, findFreeIdx s.used = some j →
      ∃ wl s', WirelessInterface.use_wireless_interface nid ty sd fr s = .ok (wl, s')
        ∧ wl.idx = j ∧ s.used[j]? = some 0 ∧ (∀ k, k < j → s.used[k]? ≠ some 0)
        ∧ s'.used = s.used.set j 1)
    ∧ (findFreeIdx s.used = none →
      WirelessInterface.use_wireless_interface nid ty sd fr s
          = .error (Err.valueError exhaustedMsg, s)
        ∧ List.IsInfix knobStr.toList exhaustedMsg.toList) := by
  constructor
  · intro j hj
    obtain ⟨hj0, hjlow⟩ := findFreeIdx_some hj
    rcases hpk : s.parked.find? (fun w => w.idx == j) with _ | w0
    · refine ⟨⟨j, nid, engineMacAddress j, ty, sd, fr⟩,
        { s with used := s.used.set j 1,
                 active := s.active ++ [⟨j, nid, engineMacAddress j, ty, sd, fr⟩] },
        ?_, rfl, hj0, hjlow, rfl⟩
      simp [WirelessInterface.use_wireless_interface, hc, hj, hpk]
    · have hidx : w0.idx = j := by
        have := List.find?_some hpk
        simpa using this
      refine ⟨{ w0 with nodeId := nid, wlanType := ty, ssid := sd, frequency := fr },
        { s with used := s.used.set j 1,
                 parked := removeFirst (fun w => w.idx == j) s.parked,
                 active := s.active ++ [{ w0 with nodeId := nid, wlanType := ty, ssid := sd, frequency := fr }] },
        ?_, hidx, hj0, hjlow, rfl⟩
      simp [WirelessInterface.use_wireless_interface, hc, hj, hpk]
  · intro hnone
    refine ⟨?_, by decide⟩
    simp [WirelessInterface.use_wireless_interface, hc, hnone]

/-- Witness for C3: on the concrete provisioned pool `[1, 0]` the scan
returns slot 1, and on the fully used pool `[1, 1]` acquisition fails with
the pool-exhaustion error and the untouched state. -/
theorem c3_witness :
    (({ initState 2 with used := [1, 0] } : NetState).created = true)
    ∧ (∃ wl s', WirelessInterface.use_wireless_interface exNodeA.id managedStr exSsidX none
          { initState 2 with used := [1, 0] } = .ok (wl, s')
        ∧ wl.idx = 1 ∧ ([1, 0] : List Nat)[1]? = some 0
        ∧ (∀ k, k < 1 → ([1, 0] : List Nat)[k]? ≠ some 0)
        ∧ s'.used = ([1, 0] : List Nat).set 1 1)
    ∧ (WirelessInterface.use_wireless_interface exNodeA.id managedStr exSsidX none
          { initState 2 with used := [1, 1] } = .error (Err.valueError exhaustedMsg,
          { initState 2 with used := [1, 1] })
        ∧ List.IsInfix knobStr.toList exhaustedMsg.toList) := by
  refine ⟨rfl, ?_, ?_⟩
  · exact (c3_acquire_lowest_free { initState 2 with used := [1, 0] }
      exNodeA.id managedStr exSsidX none rfl).1 1 (by decide)
  · exact (c3_acquire_lowest_free { initState 2 with used := [1, 1] }
      exNodeA.id managedStr exSsidX none rfl).2 (by decide)

/-!  Claim C5. -/

/-- Characterization of `remove_station_from_ibss` on a state whose IBSS
list is split around the first entry containing the interface, under the
data-model invariant that SSIDs are unique among IBSS entries. -/
theorem rsi_spec (s : NetState) (wl : Wlan)
    (pre post : List IbssEntry) (e : IbssEntry)
    (hsplit : s.ibss = pre ++ e :: post)
    (hmem : wl ∈ e.stations)
    (hfirst : ∀ e' ∈ pre, wl ∉ e'.stations)
    (hssid : ∀ e' ∈ pre, e'.ssid ≠ e.ssid) :
    WirelessTopologyMap.remove_station_from_ibss wl s =
      (if e.stations.erase wl = [] then { s with ibss := pre ++ post }
       else { s with ibss := pre ++ { e with stations := e.stations.erase wl } :: post }) := by
  have hpre : ∀ e' ∈ pre, (e'.stations.contains wl) = false := by
    intro e' he'
    have := hfirst e' he'
    simpa using this
  have he : (e.stations.contains wl) = true := by simpa using hmem
  have hsp : splitAtFirst (fun x => x.stations.contains wl) s.ibss = some (pre, e, post) := by
    rw [hsplit]; exact splitAtFirst_app post hpre he
  rw [WirelessTopologyMap.remove_station_from_ibss, hsp]
  by_cases hnil : e.stations.erase wl = []
  · have hisEmpty : ({ e with stations := e.stations.erase wl } : IbssEntry).stations.isEmpty = true := by
      simp [hnil]
    simp only [hisEmpty, if_true, hnil, if_true]
    rw [WirelessTopologyMap.remove_ibss]
    have hpre2 : ∀ e' ∈ pre, (e'.ssid == e.ssid) = false := by
      intro e' he'
      simpa using hssid e' he'
    have hrm : removeFirst (fun x => x.ssid == e.ssid)
        (pre ++ ({ e with stations := e.stations.erase wl } : IbssEntry) :: post)
          = pre ++ post := removeFirst_app post hpre2 (by simp)
    rw [hnil] at hrm
    simp only [WirelessTopologyMap.remove_ibss]
    simp [hrm]
  · have hisEmpty : ({ e with stations := e.stations.erase wl } : IbssEntry).stations.isEmpty = false := by
      simp [hnil]
    simp [hisEmpty, hnil]

/-- C5: `remove_station_from_ibss` removes the given interface (by identity,
first occurrence) from the IBSS entry containing it — the first entry whose
station list contains the interface — and deletes that entire entry from the
registry exactly when its station list becomes empty, keeping it otherwise;
all other entries are untouched.  The hypotheses spell out the containing
entry and the data-model invariant that SSIDs are unique among IBSS
entries (needed because the deletion re-scans by SSID). -/
theorem c5_remove_station_from_ibss (s : NetState) (wl : Wlan)
    (pre post : List IbssEntry) (e : IbssEntry)
    (hsplit : s.ibss = pre ++ e :: post)
    (hmem : wl ∈ e.stations)
    (hfirst : ∀ e' ∈ pre, wl ∉ e'.stations)
    (hssid : ∀ e' ∈ pre, e'.ssid ≠ e.ssid) :
    WirelessTopologyMap.remove_station_from_ibss wl s =
      (if e.stations.erase wl = [] then { s with ibss := pre ++ post }
       else { s with ibss := pre ++ { e with stations := e.stations.erase wl } :: post }) :=
  rsi_spec s wl pre post e hsplit hmem hfirst hssid

/-- Witness for C5: removing the sole station of the IBSS entry of
`exStateC5` deletes the whole entry. -/
theorem c5_witness :
    WirelessTopologyMap.remove_station_from_ibss exWlanSta exStateC5 =
      (if (⟨exSsidNet, [exWlanSta]⟩ : IbssEntry).stations.erase exWlanSta = []
       then { exStateC5 with ibss := ([] : List IbssEntry) ++ [] }
       else { exStateC5 with ibss := ([] : List IbssEntry)
          ++ { (⟨exSsidNet, [exWlanSta]⟩ : IbssEntry) with
                stations := (⟨exSsidNet, [exWlanSta]⟩ : IbssEntry).stations.erase exWlanSta } :: [] }) :=
  c5_remove_station_from_ibss exStateC5 exWlanSta [] []
    ⟨exSsidNet, [exWlanSta]⟩ (by decide) (by decide) (by decide) (by decide)

/-!  Claim C7. -/

/-- C7: on a node classified unaffiliated — not an AP, not a BSS station,
not an IBSS station — `leave_wireless_network` fails with the
not-in-network `ValueError` and the state at the raise point is the input
state: the registry and the pool are unchanged by the failed call. -/
theorem c7_leave_unaffiliated_fails (s : NetState) (n : Node)
    (h1 : WirelessTopologyMap.is_ap_q n.id s = none)
    (h2 : WirelessTopologyMap.is_bss_station_q n.id s = none)
    (h3 : WirelessTopologyMap.is_ibss_station_q n.id s = none) :
    leave_wireless_network n s = .error (Err.valueError (notInNetworkMsg n.name), s) := by
  simp [leave_wireless_network, h1, h2, h3]

/-- Witness for C7: the unaffiliated node `exNodeA` of `initState 1`. -/
theorem c7_witness :
    WirelessTopologyMap.is_ap_q exNodeA.id (initState 1) = none
      ∧ leave_wireless_network exNodeA (initState 1)
        = .error (Err.valueError (notInNetworkMsg exNodeA.name), initState 1) :=
  ⟨rfl, c7_leave_unaffiliated_fails (initState 1) exNodeA rfl rfl rfl⟩

/-!  Claim C9. -/

/-- C9: for an SSID with no registered IBSS entry, `start_adhoc_network` on
the empty node list returns the empty result (Python `None`) with the state
untouched: no IBSS entry is created and no radio is acquired. -/
theorem c9_start_ibss_empty (s : NetState) (sd : String) (f : Nat)
    (h : WirelessTopologyMap.ibss_exists sd s = false) :
    start_adhoc_network [] sd f s = .ok (none, s) := by
  simp [start_adhoc_network, h]

/-- Witness for C9 at a concrete state and SSID. -/
theorem c9_witness :
    WirelessTopologyMap.ibss_exists exSsidNet (initState 1) = false
      ∧ start_adhoc_network [] exSsidNet exFreq (initState 1) = .ok (none, initState 1) :=
  ⟨rfl, c9_start_ibss_empty (initState 1) exSsidNet exFreq rfl⟩

/-!  Claim C10. -/

/-- C10: `WifiStation.join_bss` raises a `ValueError` when the target access
point is not active, and (the active check passing) raises a `ValueError`
when the station's own IP address has not been set; in both cases the error
is raised before the delegation to the module-level join, so before any
radio acquisition or registry mutation — the raise-time state is the input
state. -/
theorem c10_wifi_station_guards (sta : WifiStation) (acc : AccessPoint) (s : NetState) :
    (acc.active = false →
      wifi_sta_join_bss sta acc s = .error (Err.valueError apNotActiveMsg, s))
    ∧ (acc.active = true → sta.address = emptyStr →
      wifi_sta_join_bss sta acc s = .error (Err.valueError (ipNotSetMsg sta.id), s)) := by
  constructor
  · intro h
    simp [wifi_sta_join_bss, h]
  · intro h h2
    simp [wifi_sta_join_bss, h, h2]

/-- Witness for C10 exercising both guard failures. -/
theorem c10_witness :
    wifi_sta_join_bss exStation exAccessPointInactive (initState 1)
        = .error (Err.valueError apNotActiveMsg, initState 1)
      ∧ wifi_sta_join_bss exStation exAccessPointActive (initState 1)
        = .error (Err.valueError (ipNotSetMsg exStation.id), initState 1) :=
  ⟨(c10_wifi_station_guards exStation exAccessPointInactive (initState 1)).1 rfl,
   (c10_wifi_station_guards exStation exAccessPointActive (initState 1)).2 rfl rfl⟩

/-!  Claim C2. -/

/-- C2: from a fresh provisioned state with a non-empty pool, `create_ap`
succeeds, and `delete_ap` on the returned interface restores the pool bitmap
to its pre-creation value (hence the free-count to the full pool size),
leaves no BSS entry in the registry, and `return_ap` on the SSID afterwards
returns none. -/
theorem c2_create_stop_roundtrip (c : Nat) (hc : 0 < c) (n : Node) (sd : String) :
    ∃ wl s₁ s₂,
      create_ap n sd (initState c) = .ok (wl, s₁)
      ∧ WirelessInterface.delete_ap wl n.name s₁ = .ok ((), s₂)
      ∧ s₂.used = (initState c).used
      ∧ s₂.used.count 0 = c
      ∧ s₂.bss = []
      ∧ WirelessTopologyMap.return_ap sd s₂ = none := by
  obtain ⟨k, rfl⟩ : ∃ k, c = k + 1 := ⟨c - 1, by omega⟩
  refine ⟨⟨0, n.id, engineMacAddress 0, apTypeStr, sd, none⟩,
    ⟨k + 1, true, 1 :: List.replicate k 0,
      [⟨sd, ⟨0, n.id, engineMacAddress 0, apTypeStr, sd, none⟩, []⟩], [], [],
      [⟨0, n.id, engineMacAddress 0, apTypeStr, sd, none⟩], []⟩,
    ⟨k + 1, true, 0 :: List.replicate k 0, [], [],
      [⟨0, n.id, engineMacAddress 0, apTypeStr, sd, none⟩], [], []⟩,
    ?_, ?_, ?_, ?_, ?_, ?_⟩
  · simp [create_ap, check_network_and_leave, WirelessTopologyMap.is_part_of_network,
      WirelessTopologyMap.is_ap_q, WirelessTopologyMap.is_bss_station_q,
      WirelessTopologyMap.is_ibss_station_q, WirelessInterface.use_wireless_interface,
      initState, List.replicate_succ, findFreeIdx_cons,
      WirelessTopologyMap.create_bss]
  · simp [WirelessInterface.delete_ap, pyTruthy, WirelessTopologyMap.get_bss_stations,
      WirelessTopologyMap.is_ap, WirelessTopologyMap.is_ap_q,
      WirelessInterface.delete_ap_loop, WirelessTopologyMap.remove_bss, removeFirst,
      WirelessInterface.free_wireless_interface, WirelessTopologyMap.move_to_def_namespace]
  · simp [initState, List.replicate_succ]
  · simp [List.replicate_succ]
  · rfl
  · rfl

/-- Witness for C2 at pool size two. -/
theorem c2_witness :
    0 < 2 ∧
    ∃ wl s₁ s₂,
      create_ap exNodeA exSsidX (initState 2) = .ok (wl, s₁)
      ∧ WirelessInterface.delete_ap wl exNodeA.name s₁ = .ok ((), s₂)
      ∧ s₂.used = (initState 2).used
      ∧ s₂.used.count 0 = 2
      ∧ s₂.bss = []
      ∧ WirelessTopologyMap.return_ap exSsidX s₂ = none :=
  ⟨by decide, c2_create_stop_roundtrip 2 (by decide) exNodeA exSsidX⟩

/-!  Shape lemmas for the registry mutators and the free and use paths,
used by the temporal and invariant claims. -/

theorem remove_station_from_bss_shape (wl : Wlan) (s : NetState) :
    ∃ b, WirelessTopologyMap.remove_station_from_bss wl s = { s with bss := b } := by
  rw [WirelessTopologyMap.remove_station_from_bss]
  rcases hsp : splitAtFirst (fun e => e.stations.contains wl) s.bss with _ | ⟨⟨pre, e, post⟩⟩
  · rw [hsp]
    exact ⟨s.bss, rfl⟩
  · rw [hsp]
    exact ⟨_, rfl⟩

theorem remove_station_from_ibss_shape (wl : Wlan) (s : NetState) :
    ∃ b, WirelessTopologyMap.remove_station_from_ibss wl s = { s with ibss := b } := by
  rw [WirelessTopologyMap.remove_station_from_ibss]
  rcases hsp : splitAtFirst (fun e => e.stations.contains wl) s.ibss with _ | ⟨⟨pre, e, post⟩⟩
  · rw [hsp]
    exact ⟨s.ibss, rfl⟩
  · rw [hsp]
    dsimp only
    by_cases hie : (({ e with stations := e.stations.erase wl } : IbssEntry).stations.isEmpty) = true
    · rw [if_pos hie]
      exact ⟨_, rfl⟩
    · rw [if_neg hie]
      exact ⟨_, rfl⟩

theorem free_ok_shape {wl : Wlan} {s : NetState} {r : Unit} {s' : NetState}
    (h : WirelessInterface.free_wireless_interface wl s = .ok (r, s')) :
    s' = { s with used := s.used.set wl.idx 0,
                  parked := wl :: removeFirst (fun w => w.idx == wl.idx) s.parked,
                  active := s.active.erase wl }
      ∧ wl.idx < s.used.length := by
  rw [WirelessInterface.free_wireless_interface] at h
  split at h
  · simp only [WirelessTopologyMap.move_to_def_namespace, Except.ok.injEq, Prod.mk.injEq] at h
    obtain ⟨-, h2⟩ := h
    exact ⟨h2.symm, by assumption⟩
  · simp at h

theorem use_ok_shape {nid ty sd : String} {fr : Option Nat} {s : NetState} {wl : Wlan}
    {s' : NetState}
    (h : WirelessInterface.use_wireless_interface nid ty sd fr s = .ok (wl, s')) :
    ∃ j,
      wl.idx = j ∧ wl.nodeId = nid
      ∧ (let s0 := if s.created = false then WirelessInterface.create_wireless_interfaces s else s
         findFreeIdx s0.used = some j
         ∧ s'.bss = s0.bss ∧ s'.ibss = s0.ibss ∧ s'.trace = s0.trace
         ∧ s'.used = s0.used.set j 1
         ∧ s'.active = s0.active ++ [wl]
         ∧ s'.created = s0.created ∧ s'.maxCount = s0.maxCount) := by
  rw [WirelessInterface.use_wireless_interface] at h
  set s0 := if s.created = false then WirelessInterface.create_wireless_interfaces s else s with hs0
  rcases hf : findFreeIdx s0.used with _ | j
  · rw [hf] at h; simp at h
  · rw [hf] at h
    refine ⟨j, ?_⟩
    rcases hp : s0.parked.find? (fun w => w.idx == j) with _ | w0
    · simp only [hp, Except.ok.injEq, Prod.mk.injEq] at h
      obtain ⟨hw, hst⟩ := h
      subst hw
      subst hst
      simp [hf]
    · simp only [hp, Except.ok.injEq, Prod.mk.injEq] at h
      obtain ⟨hw, hst⟩ := h
      subst hw
      subst hst
      have hidx : w0.idx = j := by
        have := List.find?_some hp
        simpa using this
      simp [hf, hidx]

theorem leave_bss_ok_trace {wl : Wlan} {s : NetState} {r : Unit} {s' : NetState}
    (h : WirelessInterface.leave_bss wl s = .ok (r, s')) :
    s'.trace = s.trace ∧ s'.ibss = s.ibss := by
  rw [WirelessInterface.leave_bss] at h
  simp only [pyTruthy, Bool.true_eq_false, if_false] at h
  obtain ⟨b, hb⟩ := remove_station_from_bss_shape wl s
  rw [hb] at h
  obtain ⟨hs', -⟩ := free_ok_shape h
  simp [hs']

theorem leave_ibss_ok_trace {wl : Wlan} {s : NetState} {r : Unit} {s' : NetState}
    (h : WirelessInterface.leave_ibss wl s = .ok (r, s')) :
    s'.trace = s.trace ++ [Event.leaveIbss wl.idx wl.nodeId] ∧ s'.bss = s.bss := by
  rw [WirelessInterface.leave_ibss] at h
  simp only [pyTruthy, Bool.true_eq_false, if_false] at h
  obtain ⟨b, hb⟩ := remove_station_from_ibss_shape wl
    { s with trace := s.trace ++ [Event.leaveIbss wl.idx wl.nodeId] }
  rw [hb] at h
  obtain ⟨hs', -⟩ := free_ok_shape h
  simp [hs']

theorem delete_ap_loop_ok_trace {wl : Wlan} :
    ∀ {fuel i : Nat} {s : NetState} {r : Unit} {s' : NetState},
      WirelessInterface.delete_ap_loop wl fuel i s = .ok (r, s') →
      s'.trace = s.trace ∧ s'.ibss = s.ibss := by
  intro fuel
  induction fuel with
  | zero =>
      intro i s r s' h
      rw [WirelessInterface.delete_ap_loop] at h
      simp only [Except.ok.injEq, Prod.mk.injEq] at h
      obtain ⟨-, h2⟩ := h
      simp [h2.symm]
  | succ f ih =>
      intro i s r s' h
      rw [WirelessInterface.delete_ap_loop] at h
      rcases hg : WirelessTopologyMap.get_bss_stations wl s with _ | cur
      · rw [hg] at h
        simp only [Except.ok.injEq, Prod.mk.injEq] at h
        obtain ⟨-, h2⟩ := h
        simp [h2.symm]
      · rw [hg] at h
        dsimp only at h
        by_cases hi : i < cur.length
        · rw [dif_pos hi] at h
          rcases hl : WirelessInterface.leave_bss (cur.get ⟨i, hi⟩) s with e | ⟨u, sm⟩
          · rw [hl] at h; simp at h
          · rw [hl] at h
            obtain ⟨ht1, hi1⟩ := leave_bss_ok_trace hl
            obtain ⟨ht2, hi2⟩ := ih h
            exact ⟨ht2.trans ht1, hi2.trans hi1⟩
        · rw [dif_neg hi] at h
          simp only [Except.ok.injEq, Prod.mk.injEq] at h
          obtain ⟨-, h2⟩ := h
          simp [h2.symm]

theorem delete_ap_ok_trace {wl : Wlan} {nm : String} {s : NetState} {r : Unit} {s' : NetState}
    (h : WirelessInterface.delete_ap wl nm s = .ok (r, s')) :
    s'.trace = s.trace ∧ s'.ibss = s.ibss := by
  rw [WirelessInterface.delete_ap] at h
  simp only [pyTruthy, Bool.true_eq_false, if_false] at h
  rcases hg : WirelessTopologyMap.get_bss_stations wl s with _ | stations
  · rw [hg] at h; simp at h
  · rw [hg] at h
    dsimp only at h
    rcases hl : WirelessInterface.delete_ap_loop wl (stations.length + 1) 0 s with e | ⟨u, sm⟩
    · rw [hl] at h; simp at h
    · rw [hl] at h
      obtain ⟨ht1, hi1⟩ := delete_ap_loop_ok_trace hl
      obtain ⟨hs', -⟩ := free_ok_shape h
      subst hs'
      simp [WirelessTopologyMap.remove_bss, ht1, hi1]

theorem leave_ok_trace {n : Node} {s : NetState} {r : Unit} {s' : NetState}
    (h : leave_wireless_network n s = .ok (r, s')) :
    ∃ t, s'.trace = s.trace ++ t ∧ noJoinEv t := by
  rw [leave_wireless_network] at h
  rcases h1 : WirelessTopologyMap.is_ap_q n.id s with _ | intf
  · rw [h1] at h
    rcases h2 : WirelessTopologyMap.is_bss_station_q n.id s with _ | intf
    · rw [h2] at h
      rcases h3 : WirelessTopologyMap.is_ibss_station_q n.id s with _ | intf
      · rw [h3] at h; simp at h
      · rw [h3] at h
        obtain ⟨ht, -⟩ := leave_ibss_ok_trace h
        exact ⟨[Event.leaveIbss intf.idx intf.nodeId], ht, by intro i sd f nd; simp⟩
    · rw [h2] at h
      obtain ⟨ht, -⟩ := leave_bss_ok_trace h
      exact ⟨[], by simpa using ht, by intro i sd f nd; simp⟩
  · rw [h1] at h
    obtain ⟨ht, -⟩ := delete_ap_ok_trace h
    exact ⟨[], by simpa using ht, by intro i sd f nd; simp⟩

theorem check_leave_ok_trace {n : Node} {s : NetState} {r : Unit} {s' : NetState}
    (h : check_network_and_leave n s = .ok (r, s')) :
    ∃ t, s'.trace = s.trace ++ t ∧ noJoinEv t := by
  rw [check_network_and_leave] at h
  by_cases hp : WirelessTopologyMap.is_part_of_network n.id s
  · rw [if_pos hp] at h
    exact leave_ok_trace h
  · rw [if_neg hp] at h
    simp only [Except.ok.injEq, Prod.mk.injEq] at h
    obtain ⟨-, h2⟩ := h
    exact ⟨[], by simp [h2.symm], by intro i sd f nd; simp⟩

theorem create_if_fields (s : NetState) :
    (if s.created = false then WirelessInterface.create_wireless_interfaces s else s).trace = s.trace
    ∧ (if s.created = false then WirelessInterface.create_wireless_interfaces s else s).bss = s.bss
    ∧ (if s.created = false then WirelessInterface.create_wireless_interfaces s else s).ibss = s.ibss
    ∧ (if s.created = false then WirelessInterface.create_wireless_interfaces s else s).parked = s.parked
    ∧ (if s.created = false then WirelessInterface.create_wireless_interfaces s else s).active = s.active := by
  by_cases h : s.created = false <;>
    simp [h, WirelessInterface.create_wireless_interfaces]

theorem use_ok_trace {nid ty sd : String} {fr : Option Nat} {s : NetState} {wl : Wlan}
    {s' : NetState}
    (h : WirelessInterface.use_wireless_interface nid ty sd fr s = .ok (wl, s')) :
    s'.trace = s.trace ∧ s'.bss = s.bss ∧ s'.ibss = s.ibss ∧ wl.nodeId = nid := by
  obtain ⟨j, -, hnode, hrest⟩ := use_ok_shape h
  obtain ⟨-, hb, hib, ht, -, -, -, -⟩ := hrest
  obtain ⟨ht0, hb0, hib0, -, -⟩ := create_if_fields s
  exact ⟨ht.trans ht0, hb.trans hb0, hib.trans hib0, hnode⟩

theorem adhoc_join_loop_spec {sd : String} {f : Nat} :
    ∀ {nodes : List Node} {s : NetState} {ws : List Wlan} {s' : NetState},
      adhoc_join_loop sd f nodes s = .ok (ws, s') →
      (∃ t, s'.trace = s.trace ++ t)
      ∧ ws.length = nodes.length
      ∧ ∀ k (hk : k < ws.length) (hk2 : k < nodes.length),
          (ws.get ⟨k, hk⟩).nodeId = (nodes.get ⟨k, hk2⟩).id := by
  intro nodes
  induction nodes with
  | nil =>
      intro s ws s' h
      rw [adhoc_join_loop] at h
      simp only [Except.ok.injEq, Prod.mk.injEq] at h
      obtain ⟨h1, h2⟩ := h
      subst h1; subst h2
      refine ⟨⟨[], by simp⟩, rfl, ?_⟩
      intro k hk hk2
      exact absurd hk2 (by simp)
  | cons nd rest ih =>
      intro s ws s' h
      rw [adhoc_join_loop] at h
      rcases hc : check_network_and_leave nd s with e | ⟨u, s1⟩
      · rw [hc] at h; simp at h
      · rw [hc] at h
        dsimp only at h
        rcases hu : WirelessInterface.use_wireless_interface nd.id ibssTypeStr sd (some f) s1
          with e | ⟨wl, s2⟩
        · rw [hu] at h; simp at h
        · rw [hu] at h
          dsimp only at h
          rcases hrec : adhoc_join_loop sd f rest (WirelessTopologyMap.add_station_to_ibss sd wl
              { s2 with trace := s2.trace ++ [Event.joinIbss wl.idx sd f wl.nodeId] })
            with e | ⟨ws2, s3⟩
          · rw [hrec] at h; simp at h
          · rw [hrec] at h
            simp only [Except.ok.injEq, Prod.mk.injEq] at h
            obtain ⟨h1, h2⟩ := h
            subst h1; subst h2
            obtain ⟨⟨t3, ht3⟩, hlen, hidx⟩ := ih hrec
            obtain ⟨t0, ht0, -⟩ := check_leave_ok_trace hc
            obtain ⟨ht2, -, -, hnode⟩ := use_ok_trace hu
            refine ⟨⟨t0 ++ [Event.joinIbss wl.idx sd f wl.nodeId] ++ t3, ?_⟩, by simp [hlen], ?_⟩
            · rw [ht3]
              simp [WirelessTopologyMap.add_station_to_ibss, ht2, ht0]
            · intro k hk hk2
              match k with
              | 0 => simpa using hnode
              | k' + 1 =>
                  have hk' : k' < ws2.length := by simpa using hk
                  have hk2' : k' < rest.length := by simpa using hk2
                  simpa using hidx k' hk' hk2'

/-!  Claim C8. -/

/-- C8: in every completing execution of `start_adhoc_network` with at least
two nodes, the first node's ad-hoc join command, the creation of the new
IBSS registry entry and the long settle delay all occur — in that order — as
one contiguous trace block preceded only by events of the first node's
auto-leave (which issues no ad-hoc join) and followed by everything else, so
the ad-hoc join of every subsequent node is issued strictly after them; and
the returned interfaces correspond to the input nodes in input order. -/
theorem c8_start_ibss_ordering {s : NetState} {n0 n1 : Node} {rest : List Node}
    {sd : String} {f : Nat} {wlans : List Wlan} {s' : NetState}
    (hok : start_adhoc_network (n0 :: n1 :: rest) sd f s = .ok (some wlans, s')) :
    ∃ i0 t0 t1,
      s'.trace = s.trace ++ t0
          ++ [Event.joinIbss i0 sd f n0.id, Event.registerIbss sd, Event.sleep 20] ++ t1
      ∧ noJoinEv t0
      ∧ wlans.length = (n0 :: n1 :: rest).length
      ∧ ∀ k (hk : k < wlans.length) (hk2 : k < (n0 :: n1 :: rest).length),
          (wlans.get ⟨k, hk⟩).nodeId = ((n0 :: n1 :: rest).get ⟨k, hk2⟩).id := by
  rw [start_adhoc_network] at hok
  split at hok
  · exact absurd hok (by simp)
  · dsimp only at hok
    split at hok
    · exact absurd hok (by simp)
    · rename_i u sA heqc
      split at hok
      · exact absurd hok (by simp)
      · rename_i wl sB hequ
        split at hok
        · exact absurd hok (by simp)
        · rename_i ws2 sC heqr
          simp only [Except.ok.injEq, Prod.mk.injEq, Option.some.injEq] at hok
          obtain ⟨h1, h2⟩ := hok
          subst h1; subst h2
          obtain ⟨⟨t3, ht3⟩, hlen, hidx⟩ := adhoc_join_loop_spec heqr
          obtain ⟨t0, ht0, hnj⟩ := check_leave_ok_trace heqc
          obtain ⟨htB, -, -, hnode⟩ := use_ok_trace hequ
          refine ⟨wl.idx, t0, t3 ++ [Event.sleep 2], ?_, hnj, by simpa using hlen, ?_⟩
          · rw [ht3]
            simp [WirelessTopologyMap.add_station_to_ibss, WirelessTopologyMap.create_ibss,
              htB, ht0, hnode]
          · intro k hk hk2
            match k with
            | 0 => simpa using hnode
            | k' + 1 =>
                have hk' : k' < ws2.length := by simpa using hk
                have hk2' : k' < (n1 :: rest).length := by simpa using hk2
                simpa using hidx k' hk' hk2'

/-- Witness for C8: the concrete two-node formation run from a provisioned
pool of size two. -/
theorem c8_witness :
    ∃ i0 t0 t1,
      exStateC8.trace = (initState 2).trace ++ t0
          ++ [Event.joinIbss i0 exSsidNet exFreq exNodeA.id, Event.registerIbss exSsidNet,
              Event.sleep 20] ++ t1
      ∧ noJoinEv t0
      ∧ exWlansC8.length = (exNodeA :: exNodeB :: ([] : List Node)).length
      ∧ ∀ k (hk : k < exWlansC8.length)
          (hk2 : k < (exNodeA :: exNodeB :: ([] : List Node)).length),
          (exWlansC8.get ⟨k, hk⟩).nodeId
            = ((exNodeA :: exNodeB :: ([] : List Node)).get ⟨k, hk2⟩).id :=
  @c8_start_ibss_ordering (initState 2) exNodeA exNodeB [] exSsidNet exFreq exWlansC8
    exStateC8 rfl

/-!  Counting lemmas for the pool bitmap. -/

theorem count_one_set_one :
    ∀ {l : List Nat} {i : Nat}, l[i]? = some 0 → (l.set i 1).count 1 = l.count 1 + 1 := by
  intro l
  induction l with
  | nil => intro i h; simp at h
  | cons a t ih =>
      intro i h
      match i with
      | 0 =>
          simp only [List.getElem?_cons_zero, Option.some.injEq] at h
          subst h
          simp [List.count_cons]
      | i' + 1 =>
          simp only [List.getElem?_cons_succ] at h
          simp [List.set_cons_succ, List.count_cons, ih h]
          omega

theorem count_one_set_zero :
    ∀ {l : List Nat} {i : Nat}, l[i]? = some 1 → (l.set i 0).count 1 + 1 = l.count 1 := by
  intro l
  induction l with
  | nil => intro i h; simp at h
  | cons a t ih =>
      intro i h
      match i with
      | 0 =>
          simp only [List.getElem?_cons_zero, Option.some.injEq] at h
          subst h
          simp [List.count_cons]
      | i' + 1 =>
          simp only [List.getElem?_cons_succ] at h
          have := ih h
          simp [List.set_cons_succ, List.count_cons]
          omega

/-!  Characterization of the registry interface list. -/

theorem registryWlans_congr {s s' : NetState} (hb : s'.bss = s.bss) (hi : s'.ibss = s.ibss) :
    registryWlans s' = registryWlans s := by
  rw [registryWlans, registryWlans, hb, hi]

theorem mem_registry_of_ap {s : NetState} {e : BssEntry} (he : e ∈ s.bss) :
    e.ap ∈ registryWlans s := by
  rw [registryWlans]
  refine List.mem_append_left _ ?_
  rw [List.mem_flatMap]
  exact ⟨e, he, by simp⟩

theorem mem_registry_of_bss_station {s : NetState} {e : BssEntry} {wl : Wlan}
    (he : e ∈ s.bss) (hw : wl ∈ e.stations) : wl ∈ registryWlans s := by
  rw [registryWlans]
  refine List.mem_append_left _ ?_
  rw [List.mem_flatMap]
  exact ⟨e, he, by simp [hw]⟩

theorem mem_registry_of_ibss_station {s : NetState} {e : IbssEntry} {wl : Wlan}
    (he : e ∈ s.ibss) (hw : wl ∈ e.stations) : wl ∈ registryWlans s := by
  rw [registryWlans]
  refine List.mem_append_right _ ?_
  rw [List.mem_flatMap]
  exact ⟨e, he, hw⟩

/-!  The well-formedness predicate: basic consequences and stability under
trace updates. -/

theorem WF_trace {s : NetState} (t : List Event) (h : WF s) :
    WF { s with trace := t } := by
  rw [WF] at h ⊢
  simp only [registryWlans] at h ⊢
  exact h

theorem WF_active_nodup {s : NetState} (h : WF s) : s.active.Nodup := by
  obtain ⟨h1, -⟩ := h
  exact h1.imp (fun hne heq => hne (by rw [heq]))

theorem WF_active_idx_ne {s : NetState} (h : WF s) {a b : Wlan}
    (ha : a ∈ s.active) (hb : b ∈ s.active) (hne : a ≠ b) : a.idx ≠ b.idx := by
  obtain ⟨h1, -⟩ := h
  refine List.Pairwise.forall ?_ h1 ha hb hne
  intro x y hxy heq
  exact hxy heq.symm

theorem freshState_WF (c : Nat) : WF (freshState c) := by
  rw [WF, freshState, registryWlans]
  refine ⟨by simp, by simp, by simp, by simp, by simp, by simp, by simp, by simp⟩

theorem init_WF {s : NetState} (h : WF s) :
    WF (if s.created = false then WirelessInterface.create_wireless_interfaces s else s) := by
  by_cases hc : s.created = false
  · rw [if_pos hc]
    have h8 := h.2.2.2.2.2.2.2 hc
    obtain ⟨hu, ha, hb, hi⟩ := h8
    rw [WF, WirelessInterface.create_wireless_interfaces]
    refine ⟨?_, ?_, ?_, ?_, ?_, ?_, ?_, ?_⟩ <;>
      simp [registryWlans, ha, hb, hi, List.count_replicate, List.getElem?_replicate]
  · rw [if_neg hc]
    exact h

theorem init_created (s : NetState) :
    (if s.created = false then WirelessInterface.create_wireless_interfaces s else s).created
      = true := by
  by_cases hc : s.created = false
  · simp [hc, WirelessInterface.create_wireless_interfaces]
  · rcases hb : s.created with _ | _
    · exact absurd hb hc
    · simp [hc, hb]

theorem use_ok_WF {nid ty sd : String} {fr : Option Nat} {s : NetState} {wl : Wlan}
    {s' : NetState} (hWF : WF s)
    (h : WirelessInterface.use_wireless_interface nid ty sd fr s = .ok (wl, s')) :
    WF s' ∧ wl ∈ s'.active ∧ wl ∉ registryWlans s'
      ∧ registryWlans s' = registryWlans s ∧ s'.bss = s.bss ∧ s'.ibss = s.ibss
      ∧ s'.created = true ∧ wl.nodeId = nid := by
  obtain ⟨j, hidx, hnode, hrest⟩ := use_ok_shape h
  obtain ⟨hfind, hb, hib, ht, hu, ha, hcr, hmax⟩ := hrest
  have hWF0 := init_WF hWF
  obtain ⟨hcf0, hbf0, hif0, -, -⟩ := create_if_fields s
  obtain ⟨w1, w2, w3, w4, w5, w6, w7, w8⟩ := hWF0
  obtain ⟨hj0, -⟩ := findFreeIdx_some hfind
  have hjlt : j < (if s.created = false then WirelessInterface.create_wireless_interfaces s
      else s).used.length := (List.getElem?_eq_some_iff.mp hj0).1
  have hfreshidx : ∀ a ∈ (if s.created = false then WirelessInterface.create_wireless_interfaces s
      else s).active, a.idx ≠ j := by
    intro a haa heq
    have := (w2 a haa).2
    rw [heq, hj0] at this
    simp at this
  have hregeq : registryWlans s' = registryWlans s := by
    refine registryWlans_congr ?_ ?_
    · exact hb.trans hbf0
    · exact hib.trans hif0
  have hwlact : wl ∈ s'.active := by
    rw [ha]; simp
  have hwlreg : wl ∉ registryWlans s' := by
    intro hx
    rw [registryWlans_congr hb hib] at hx
    have := (w2 wl (w7 wl hx)).2
    rw [hidx, hj0] at this
    simp at this
  refine ⟨?_, hwlact, hwlreg, hregeq, hb.trans hbf0, hib.trans hif0,
    hcr.trans (init_created s), hnode⟩
  rw [WF]
  refine ⟨?_, ?_, ?_, ?_, ?_, ?_, ?_, ?_⟩
  · rw [ha]
    rw [List.pairwise_append]
    refine ⟨w1, by simp, ?_⟩
    intro a haa b hbb
    have : b = wl := by simpa using hbb
    subst this
    rw [hidx]
    exact hfreshidx a haa
  · intro x hx
    rw [ha] at hx
    rcases List.mem_append.mp hx with hxa | hxw
    · obtain ⟨hl, hv⟩ := w2 x hxa
      rw [hu]
      constructor
      · simpa [List.length_set] using hl
      · rw [List.getElem?_set_ne (fun heq => hfreshidx x hxa heq.symm)]
        exact hv
    · have : x = wl := by simpa using hxw
      subst this
      rw [hu, hidx]
      constructor
      · simpa [List.length_set] using hjlt
      · rw [List.getElem?_set_self]
        exact hjlt
  · intro i hi hv
    rw [hu] at hv hi
    by_cases hij : i = j
    · subst hij
      exact ⟨wl, by rw [ha]; simp, hidx⟩
    · rw [List.getElem?_set_ne (fun heq => hij heq.symm)] at hv
      have hi' : i ∈ List.range ((if s.created = false then
          WirelessInterface.create_wireless_interfaces s else s).used.length) := by
        simpa [List.length_set] using hi
      obtain ⟨a, haa, haidx⟩ := w3 i hi' hv
      exact ⟨a, by rw [ha]; exact List.mem_append_left _ haa, haidx⟩
  · intro v hv
    rw [hu] at hv
    rcases List.mem_or_eq_of_mem_set hv with hv' | hv'
    · exact w4 v hv'
    · right; exact hv'
  · rw [hu, ha]
    rw [count_one_set_one hj0]
    simp [w5]
  · rw [registryWlans_congr hb hib]
    exact w6
  · intro x hx
    rw [registryWlans_congr hb hib] at hx
    rw [ha]
    exact List.mem_append_left _ (w7 x hx)
  · intro hcf
    rw [hcr, init_created s] at hcf
    simp at hcf

theorem free_ok_WF {wl : Wlan} {s : NetState} (hWF : WF s)
    (hmem : wl ∈ s.active) (hreg : wl ∉ registryWlans s) :
    ∃ s', WirelessInterface.free_wireless_interface wl s = .ok ((), s')
      ∧ WF s' ∧ s'.bss = s.bss ∧ s'.ibss = s.ibss ∧ s'.trace = s.trace
      ∧ s'.used = s.used.set wl.idx 0 ∧ s'.active = s.active.erase wl
      ∧ s'.created = s.created := by
  have hnodup := WF_active_nodup hWF
  have hWF' := hWF
  obtain ⟨w1, w2, w3, w4, w5, w6, w7, w8⟩ := hWF'
  obtain ⟨hlt, hval⟩ := w2 wl hmem
  refine ⟨{ s with used := s.used.set wl.idx 0, parked := wl :: removeFirst (fun w => w.idx == wl.idx) s.parked, active := s.active.erase wl }, ?_, ?_, rfl, rfl, rfl, rfl, rfl, rfl⟩
  · rw [WirelessInterface.free_wireless_interface, if_pos hlt]
    rfl
  · rw [WF]
    refine ⟨?_, ?_, ?_, ?_, ?_, ?_, ?_, ?_⟩
    · exact List.Pairwise.sublist (List.erase_sublist wl s.active) w1
    · intro a ha'
      obtain ⟨hane, haA⟩ := (List.Nodup.mem_erase_iff hnodup).mp ha'
      have hidxne : a.idx ≠ wl.idx := WF_active_idx_ne hWF haA hmem hane
      obtain ⟨hl, hv⟩ := w2 a haA
      constructor
      · simpa [List.length_set] using hl
      · rw [List.getElem?_set_ne (fun heq => hidxne heq.symm)]
        exact hv
    · intro i hi hv
      by_cases hij : i = wl.idx
      · subst hij
        rw [List.getElem?_set_self hlt] at hv
        simp at hv
      · rw [List.getElem?_set_ne (fun heq => hij heq.symm)] at hv
        have hi' : i ∈ List.range s.used.length := by
          simpa [List.length_set] using hi
        obtain ⟨a, haA, haidx⟩ := w3 i hi' hv
        have hane : a ≠ wl := by
          intro heq
          subst heq
          exact hij haidx.symm
        exact ⟨a, (List.mem_erase_of_ne hane).mpr haA, haidx⟩
    · intro v hv
      rcases List.mem_or_eq_of_mem_set hv with hv' | hv'
      · exact w4 v hv'
      · left; exact hv'
    · have hc := count_one_set_zero hval
      have hlen := List.length_erase_of_mem hmem
      have hpos := List.length_pos_of_mem hmem
      simp only []
      omega
    · exact w6
    · intro x hx
      have hxa := w7 x hx
      have hxne : x ≠ wl := by
        intro heq
        subst heq
        exact hreg hx
      exact (List.mem_erase_of_ne hxne).mpr hxa
    · intro hcf
      have := (w8 hcf).2.1
      rw [this] at hmem
      simp at hmem

/-!  Registry growth and shrinkage lemmas. -/

theorem sublist_flatMap {α β : Type} {l1 l2 : List α} (f : α → List β)
    (h : List.Sublist l1 l2) : List.Sublist (l1.flatMap f) (l2.flatMap f) := by
  induction h with
  | slnil => simp
  | cons a h ih => exact ih.trans (List.sublist_append_right _ _)
  | cons₂ a h ih => exact List.Sublist.append (List.Sublist.refl _) ih

theorem exists_split_of_any {α : Type} {p : α → Bool} {l : List α}
    (h : ∃ x ∈ l, p x = true) :
    ∃ pre x post, l = pre ++ x :: post ∧ p x = true ∧ (∀ y ∈ pre, p y = false)
      ∧ splitAtFirst p l = some (pre, x, post) := by
  rcases hs : splitAtFirst p l with _ | ⟨⟨pre, x, post⟩⟩
  · obtain ⟨x, hx, hpx⟩ := h
    have := splitAtFirst_none_iff.mp hs x hx
    rw [hpx] at this
    cases this
  · obtain ⟨hl, hpx, hpre⟩ := splitAtFirst_some hs
    exact ⟨pre, x, post, hl, hpx, hpre, rfl⟩

theorem count_registry_create_bss (sd : String) (wl : Wlan) (s : NetState) (a : Wlan) :
    (registryWlans (WirelessTopologyMap.create_bss sd wl s)).count a
      = (registryWlans s).count a + List.count a [wl] := by
  rw [WirelessTopologyMap.create_bss, registryWlans, registryWlans]
  simp only [List.flatMap_append, List.flatMap_cons, List.flatMap_nil, List.count_append]
  simp [List.count_cons]
  omega

theorem mem_registry_create_bss {sd : String} {wl : Wlan} {s : NetState} {x : Wlan}
    (h : x ∈ registryWlans (WirelessTopologyMap.create_bss sd wl s)) :
    x ∈ registryWlans s ∨ x = wl := by
  rw [WirelessTopologyMap.create_bss, registryWlans] at h
  rw [registryWlans]
  simp only [List.flatMap_append, List.flatMap_cons, List.flatMap_nil, List.mem_append] at h ⊢
  rcases h with (h | h) | h
  · exact Or.inl (Or.inl h)
  · simp at h
    exact Or.inr h
  · exact Or.inl (Or.inr h)

theorem updateFirst_cons_pos {α : Type} {p : α → Bool} {f : α → α} {x : α}
    (hp : p x = true) (t : List α) : updateFirst p f (x :: t) = f x :: t := by
  simp [updateFirst, hp]

theorem updateFirst_cons_neg {α : Type} {p : α → Bool} {f : α → α} {x : α}
    (hp : p x = false) (t : List α) :
    updateFirst p f (x :: t) = x :: updateFirst p f t := by
  simp [updateFirst, hp]

theorem count_flat_updateFirst_bss (p : BssEntry → Bool) (wl a : Wlan) :
    ∀ l : List BssEntry,
      ((updateFirst p (fun e => { e with stations := e.stations ++ [wl] }) l).flatMap
          (fun e => e.ap :: e.stations)).count a
        ≤ (l.flatMap (fun e => e.ap :: e.stations)).count a + List.count a [wl] := by
  intro l
  induction l with
  | nil => simp [updateFirst]
  | cons x t ih =>
      rcases hp : p x with _ | _
      · rw [updateFirst_cons_neg hp, List.flatMap_cons, List.flatMap_cons]
        simp only [List.count_append]
        omega
      · rw [updateFirst_cons_pos hp, List.flatMap_cons, List.flatMap_cons]
        simp only [List.count_append, List.count_cons]
        simp [List.count_append, List.count_cons]
        omega

theorem mem_flat_updateFirst_bss {p : BssEntry → Bool} {wl x : Wlan} :
    ∀ {l : List BssEntry},
      x ∈ (updateFirst p (fun e => { e with stations := e.stations ++ [wl] }) l).flatMap
          (fun e => e.ap :: e.stations) →
        x ∈ l.flatMap (fun e => e.ap :: e.stations) ∨ x = wl := by
  intro l
  induction l with
  | nil => intro h; simp [updateFirst] at h
  | cons y t ih =>
      intro h
      rcases hp : p y with _ | _
      · rw [updateFirst_cons_neg hp, List.flatMap_cons] at h
        rw [List.flatMap_cons]
        rcases List.mem_append.mp h with h | h
        · exact Or.inl (List.mem_append_left _ h)
        · rcases ih h with h' | h'
          · exact Or.inl (List.mem_append_right _ h')
          · exact Or.inr h'
      · rw [updateFirst_cons_pos hp, List.flatMap_cons] at h
        rw [List.flatMap_cons]
        rcases List.mem_append.mp h with h | h
        · rcases List.mem_cons.mp h with h | h
          · exact Or.inl (List.mem_append_left _ (List.mem_cons.mpr (Or.inl h)))
          · rcases List.mem_append.mp h with h | h
            · exact Or.inl (List.mem_append_left _ (List.mem_cons.mpr (Or.inr h)))
            · exact Or.inr (by simpa using h)
        · exact Or.inl (List.mem_append_right _ h)

theorem count_flat_updateFirst_ibss (p : IbssEntry → Bool) (wl a : Wlan) :
    ∀ l : List IbssEntry,
      ((updateFirst p (fun e => { e with stations := e.stations ++ [wl] }) l).flatMap
          (fun e => e.stations)).count a
        ≤ (l.flatMap (fun e => e.stations)).count a + List.count a [wl] := by
  intro l
  induction l with
  | nil => simp [updateFirst]
  | cons x t ih =>
      rcases hp : p x with _ | _
      · rw [updateFirst_cons_neg hp, List.flatMap_cons, List.flatMap_cons]
        simp only [List.count_append]
        omega
      · rw [updateFirst_cons_pos hp, List.flatMap_cons, List.flatMap_cons]
        simp only [List.count_append]
        omega

theorem mem_flat_updateFirst_ibss {p : IbssEntry → Bool} {wl x : Wlan} :
    ∀ {l : List IbssEntry},
      x ∈ (updateFirst p (fun e => { e with stations := e.stations ++ [wl] }) l).flatMap
          (fun e => e.stations) →
        x ∈ l.flatMap (fun e => e.stations) ∨ x = wl := by
  intro l
  induction l with
  | nil => intro h; simp [updateFirst] at h
  | cons y t ih =>
      intro h
      rcases hp : p y with _ | _
      · rw [updateFirst_cons_neg hp, List.flatMap_cons] at h
        rw [List.flatMap_cons]
        rcases List.mem_append.mp h with h | h
        · exact Or.inl (List.mem_append_left _ h)
        · rcases ih h with h' | h'
          · exact Or.inl (List.mem_append_right _ h')
          · exact Or.inr h'
      · rw [updateFirst_cons_pos hp, List.flatMap_cons] at h
        rw [List.flatMap_cons]
        rcases List.mem_append.mp h with h | h
        · rcases List.mem_append.mp h with h | h
          · exact Or.inl (List.mem_append_left _ h)
          · exact Or.inr (by simpa using h)
        · exact Or.inl (List.mem_append_right _ h)

theorem registry_rsb_sublist (wl : Wlan) (s : NetState) :
    List.Sublist (registryWlans (WirelessTopologyMap.remove_station_from_bss wl s))
      (registryWlans s) := by
  rw [WirelessTopologyMap.remove_station_from_bss]
  rcases hsp : splitAtFirst (fun e => e.stations.contains wl) s.bss with _ | ⟨⟨pre, e, post⟩⟩
  · rw [hsp]
  · rw [hsp]
    dsimp only
    obtain ⟨hl, -, -⟩ := splitAtFirst_some hsp
    rw [registryWlans, registryWlans, hl]
    simp only [List.flatMap_append, List.flatMap_cons]
    refine List.Sublist.append (List.Sublist.append (List.Sublist.refl _) ?_)
      (List.Sublist.refl _)
    refine List.Sublist.append ?_ (List.Sublist.refl _)
    exact List.Sublist.cons₂ _ (List.erase_sublist wl e.stations)

theorem registry_rsb_count {wl : Wlan} {s : NetState}
    (hmem : ∃ e ∈ s.bss, wl ∈ e.stations) :
    (registryWlans (WirelessTopologyMap.remove_station_from_bss wl s)).count wl + 1
      = (registryWlans s).count wl := by
  have hany : ∃ e ∈ s.bss, (fun e : BssEntry => e.stations.contains wl) e = true := by
    obtain ⟨e, he, hw⟩ := hmem
    exact ⟨e, he, by simpa using hw⟩
  obtain ⟨pre, e, post, hl, hpx, hpre, hsp⟩ := exists_split_of_any hany
  rw [WirelessTopologyMap.remove_station_from_bss, hsp]
  dsimp only
  rw [registryWlans, registryWlans, hl]
  simp only [List.flatMap_append, List.flatMap_cons, List.count_append, List.count_cons]
  have hwl : wl ∈ e.stations := by simpa using hpx
  have hce := List.count_erase_self wl e.stations
  have hpos : 0 < e.stations.count wl := List.count_pos_iff.mpr hwl
  omega

theorem registry_remove_ibss_sublist (sd : String) (s : NetState) :
    List.Sublist (registryWlans (WirelessTopologyMap.remove_ibss sd s))
      (registryWlans s) := by
  rw [WirelessTopologyMap.remove_ibss, registryWlans, registryWlans]
  exact List.Sublist.append (List.Sublist.refl _)
    (sublist_flatMap _ (removeFirst_sublist _ _))

theorem registry_remove_bss_sublist (wl : Wlan) (s : NetState) :
    List.Sublist (registryWlans (WirelessTopologyMap.remove_bss wl s))
      (registryWlans s) := by
  rw [WirelessTopologyMap.remove_bss, registryWlans, registryWlans]
  exact List.Sublist.append (sublist_flatMap _ (removeFirst_sublist _ _))
    (List.Sublist.refl _)

theorem registry_rsi_sublist (wl : Wlan) (s : NetState) :
    List.Sublist (registryWlans (WirelessTopologyMap.remove_station_from_ibss wl s))
      (registryWlans s) := by
  rw [WirelessTopologyMap.remove_station_from_ibss]
  rcases hsp : splitAtFirst (fun e => e.stations.contains wl) s.ibss with _ | ⟨⟨pre, e, post⟩⟩
  · rw [hsp]
  · rw [hsp]
    dsimp only
    obtain ⟨hl, -, -⟩ := splitAtFirst_some hsp
    have hmid : List.Sublist (registryWlans
        { s with ibss := pre ++ ({ e with stations := e.stations.erase wl } : IbssEntry) :: post })
        (registryWlans s) := by
      rw [registryWlans, registryWlans, hl]
      simp only [List.flatMap_append, List.flatMap_cons]
      refine List.Sublist.append (List.Sublist.refl _) ?_
      refine List.Sublist.append (List.Sublist.refl _) ?_
      exact List.Sublist.append (List.erase_sublist wl e.stations) (List.Sublist.refl _)
    by_cases hie : (({ e with stations := e.stations.erase wl } : IbssEntry).stations.isEmpty) = true
    · rw [if_pos hie]
      exact (registry_remove_ibss_sublist e.ssid _).trans hmid
    · rw [if_neg hie]
      exact hmid

theorem registry_rsi_count {wl : Wlan} {s : NetState}
    (hmem : ∃ e ∈ s.ibss, wl ∈ e.stations) :
    (registryWlans (WirelessTopologyMap.remove_station_from_ibss wl s)).count wl + 1
      ≤ (registryWlans s).count wl := by
  have hany : ∃ e ∈ s.ibss, (fun e : IbssEntry => e.stations.contains wl) e = true := by
    obtain ⟨e, he, hw⟩ := hmem
    exact ⟨e, he, by simpa using hw⟩
  obtain ⟨pre, e, post, hl, hpx, hpre, hsp⟩ := exists_split_of_any hany
  rw [WirelessTopologyMap.remove_station_from_ibss, hsp]
  dsimp only
  have hwl : wl ∈ e.stations := by simpa using hpx
  have hce := List.count_erase_self wl e.stations
  have hpos : 0 < e.stations.count wl := List.count_pos_iff.mpr hwl
  have hmid : (registryWlans
      { s with ibss := pre ++ ({ e with stations := e.stations.erase wl } : IbssEntry) :: post }).count wl + 1
        = (registryWlans s).count wl := by
    rw [registryWlans, registryWlans, hl]
    simp only [List.flatMap_append, List.flatMap_cons, List.count_append]
    omega
  by_cases hie : (({ e with stations := e.stations.erase wl } : IbssEntry).stations.isEmpty) = true
  · rw [if_pos hie]
    have hsubc := (registry_remove_ibss_sublist e.ssid
      { s with ibss := pre ++ ({ e with stations := e.stations.erase wl } : IbssEntry) :: post }).count_le wl
    omega
  · rw [if_neg hie]
    omega

theorem registry_remove_bss_count {wl : Wlan} {s : NetState}
    (hmem : ∃ e ∈ s.bss, e.ap = wl) :
    (registryWlans (WirelessTopologyMap.remove_bss wl s)).count wl + 1
      ≤ (registryWlans s).count wl := by
  have hany : ∃ e ∈ s.bss, (fun e : BssEntry => e.ap == wl) e = true := by
    obtain ⟨e, he, hw⟩ := hmem
    exact ⟨e, he, by simpa using hw⟩
  obtain ⟨pre, e, post, hl, hpx, hpre, -⟩ := exists_split_of_any hany
  have hap : e.ap = wl := by simpa using hpx
  have hrf : removeFirst (fun e : BssEntry => e.ap == wl) s.bss = pre ++ post := by
    rw [hl]
    exact removeFirst_app post hpre hpx
  rw [WirelessTopologyMap.remove_bss]
  rw [registryWlans, registryWlans, hrf, hl]
  simp only [List.flatMap_append, List.flatMap_cons, List.count_append, List.count_cons]
  rw [hap]
  simp
  omega

theorem created_true_of_mem_active {s : NetState} (hWF : WF s) {wl : Wlan}
    (h : wl ∈ s.active) : s.created = true := by
  rcases hb : s.created with _ | _
  · have := (hWF.2.2.2.2.2.2.2 hb).2.1
    rw [this] at h
    simp at h
  · rfl

theorem WF_update_registry {s s' : NetState} {wl : Wlan} (hWF : WF s)
    (hused : s'.used = s.used) (hact : s'.active = s.active) (hcr : s'.created = s.created)
    (hwl : wl ∈ s.active) (hwlreg : wl ∉ registryWlans s)
    (hcnt : ∀ a, (registryWlans s').count a ≤ (registryWlans s).count a + List.count a [wl])
    (hmem : ∀ x, x ∈ registryWlans s' → x ∈ registryWlans s ∨ x = wl) :
    WF s' := by
  have hcreated := created_true_of_mem_active hWF hwl
  obtain ⟨w1, w2, w3, w4, w5, w6, w7, w8⟩ := hWF
  rw [WF, hused, hact, hcr]
  refine ⟨w1, w2, w3, w4, w5, ?_, ?_, ?_⟩
  · rw [List.nodup_iff_count_le_one]
    intro a
    have hc := hcnt a
    by_cases ha : a = wl
    · subst ha
      have h0 : (registryWlans s).count a = 0 := List.count_eq_zero.mpr hwlreg
      have h1 : List.count a [a] = 1 := by simp
      omega
    · have h1 : List.count a [wl] = 0 := by simp [ha]
      have h2 := List.nodup_iff_count_le_one.mp w6 a
      omega
  · intro x hx
    rcases hmem x hx with h | h
    · exact w7 x h
    · subst h; exact hwl
  · intro hcf
    rw [hcreated] at hcf
    cases hcf

theorem WF_registry_shrink {s s' : NetState} (hWF : WF s) (hcreated : s.created = true)
    (hused : s'.used = s.used) (hact : s'.active = s.active) (hcr : s'.created = s.created)
    (hsub : List.Sublist (registryWlans s') (registryWlans s)) : WF s' := by
  obtain ⟨w1, w2, w3, w4, w5, w6, w7, w8⟩ := hWF
  rw [WF, hused, hact, hcr]
  refine ⟨w1, w2, w3, w4, w5, List.Nodup.sublist hsub w6, ?_, ?_⟩
  · intro x hx
    exact w7 x (hsub.mem hx)
  · intro hcf
    rw [hcreated] at hcf
    cases hcf

theorem count_registry_add_bss (apid : String) (wl : Wlan) (s : NetState) (a : Wlan) :
    (registryWlans (WirelessTopologyMap.add_station_to_bss apid wl s)).count a
      ≤ (registryWlans s).count a + List.count a [wl] := by
  rw [WirelessTopologyMap.add_station_to_bss]
  simp only [registryWlans, List.count_append]
  have := count_flat_updateFirst_bss (fun e => e.ap.nodeId == apid) wl a s.bss
  omega

theorem mem_registry_add_bss {apid : String} {wl : Wlan} {s : NetState} {x : Wlan}
    (h : x ∈ registryWlans (WirelessTopologyMap.add_station_to_bss apid wl s)) :
    x ∈ registryWlans s ∨ x = wl := by
  rw [WirelessTopologyMap.add_station_to_bss] at h
  simp only [registryWlans, List.mem_append] at h ⊢
  rcases h with h | h
  · rcases mem_flat_updateFirst_bss h with h' | h'
    · exact Or.inl (Or.inl h')
    · exact Or.inr h'
  · exact Or.inl (Or.inr h)

theorem count_registry_add_ibss (sd : String) (wl : Wlan) (s : NetState) (a : Wlan) :
    (registryWlans (WirelessTopologyMap.add_station_to_ibss sd wl s)).count a
      ≤ (registryWlans s).count a + List.count a [wl] := by
  rw [WirelessTopologyMap.add_station_to_ibss]
  simp only [registryWlans, List.count_append]
  have := count_flat_updateFirst_ibss (fun e => e.ssid == sd) wl a s.ibss
  omega

theorem mem_registry_add_ibss {sd : String} {wl : Wlan} {s : NetState} {x : Wlan}
    (h : x ∈ registryWlans (WirelessTopologyMap.add_station_to_ibss sd wl s)) :
    x ∈ registryWlans s ∨ x = wl := by
  rw [WirelessTopologyMap.add_station_to_ibss] at h
  simp only [registryWlans, List.mem_append] at h ⊢
  rcases h with h | h
  · exact Or.inl (Or.inl h)
  · rcases mem_flat_updateFirst_ibss h with h' | h'
    · exact Or.inl (Or.inr h')
    · exact Or.inr h'

theorem registry_create_ibss (sd : String) (s : NetState) :
    registryWlans (WirelessTopologyMap.create_ibss sd s) = registryWlans s := by
  rw [WirelessTopologyMap.create_ibss, registryWlans, registryWlans]
  simp [List.flatMap_append]

theorem create_bss_WF {s : NetState} {wl : Wlan} {sd : String} (hWF : WF s)
    (hact : wl ∈ s.active) (hreg : wl ∉ registryWlans s) :
    WF (WirelessTopologyMap.create_bss sd wl s) :=
  WF_update_registry hWF rfl rfl rfl hact hreg
    (fun a => le_of_eq (count_registry_create_bss sd wl s a))
    (fun _ hx => mem_registry_create_bss hx)

theorem add_station_to_bss_WF {s : NetState} {wl : Wlan} {apid : String} (hWF : WF s)
    (hact : wl ∈ s.active) (hreg : wl ∉ registryWlans s) :
    WF (WirelessTopologyMap.add_station_to_bss apid wl s) :=
  WF_update_registry hWF rfl rfl rfl hact hreg
    (fun a => count_registry_add_bss apid wl s a)
    (fun _ hx => mem_registry_add_bss hx)

theorem add_station_to_ibss_WF {s : NetState} {wl : Wlan} {sd : String} (hWF : WF s)
    (hact : wl ∈ s.active) (hreg : wl ∉ registryWlans s) :
    WF (WirelessTopologyMap.add_station_to_ibss sd wl s) :=
  WF_update_registry hWF rfl rfl rfl hact hreg
    (fun a => count_registry_add_ibss sd wl s a)
    (fun _ hx => mem_registry_add_ibss hx)

theorem create_ibss_WF {s : NetState} {sd : String} (hWF : WF s)
    (hcreated : s.created = true) : WF (WirelessTopologyMap.create_ibss sd s) :=
  WF_registry_shrink hWF hcreated rfl rfl rfl
    (by rw [registry_create_ibss])

/-!  The leave paths succeed under well-formedness and preserve it. -/

theorem rsb_map_ap (wl : Wlan) (s : NetState) :
    (WirelessTopologyMap.remove_station_from_bss wl s).bss.map BssEntry.ap
      = s.bss.map BssEntry.ap := by
  rw [WirelessTopologyMap.remove_station_from_bss]
  rcases hsp : splitAtFirst (fun e => e.stations.contains wl) s.bss with _ | ⟨⟨pre, e, post⟩⟩
  · rw [hsp]
  · rw [hsp]
    dsimp only
    obtain ⟨hl, -, -⟩ := splitAtFirst_some hsp
    rw [hl]
    simp

theorem leave_bss_exists {wl : Wlan} {s : NetState} (hWF : WF s)
    (hmem : ∃ e ∈ s.bss, wl ∈ e.stations) :
    ∃ s', WirelessInterface.leave_bss wl s = .ok ((), s')
      ∧ WF s' ∧ s'.bss.map BssEntry.ap = s.bss.map BssEntry.ap ∧ s'.ibss = s.ibss := by
  obtain ⟨e, he, hw⟩ := hmem
  have hregmem : wl ∈ registryWlans s := mem_registry_of_bss_station he hw
  have hact : wl ∈ s.active := hWF.2.2.2.2.2.2.1 wl hregmem
  have hcreated := created_true_of_mem_active hWF hact
  obtain ⟨b, hbshape⟩ := remove_station_from_bss_shape wl s
  have hWFmid : WF (WirelessTopologyMap.remove_station_from_bss wl s) :=
    WF_registry_shrink hWF hcreated (by rw [hbshape]) (by rw [hbshape]) (by rw [hbshape])
      (registry_rsb_sublist wl s)
  have hcnt := registry_rsb_count ⟨e, he, hw⟩
  have hnotmem : wl ∉ registryWlans (WirelessTopologyMap.remove_station_from_bss wl s) := by
    intro hx
    have h1 : 0 < (registryWlans (WirelessTopologyMap.remove_station_from_bss wl s)).count wl :=
      List.count_pos_iff.mpr hx
    have h2 := List.nodup_iff_count_le_one.mp hWF.2.2.2.2.2.1 wl
    omega
  have hactmid : wl ∈ (WirelessTopologyMap.remove_station_from_bss wl s).active := by
    rw [hbshape]; exact hact
  obtain ⟨s', hok, hWF', hb', hib', -, -, -, -⟩ := free_ok_WF hWFmid hactmid hnotmem
  refine ⟨s', ?_, hWF', ?_, ?_⟩
  · rw [WirelessInterface.leave_bss]
    simp only [pyTruthy, Bool.true_eq_false, if_false]
    exact hok
  · rw [hb']
    exact rsb_map_ap wl s
  · rw [hib', hbshape]

theorem leave_ibss_exists {wl : Wlan} {s : NetState} (hWF : WF s)
    (hmem : ∃ e ∈ s.ibss, wl ∈ e.stations) :
    ∃ s', WirelessInterface.leave_ibss wl s = .ok ((), s')
      ∧ WF s' ∧ s'.bss = s.bss := by
  obtain ⟨e, he, hw⟩ := hmem
  have hregmem : wl ∈ registryWlans s := mem_registry_of_ibss_station he hw
  have hact : wl ∈ s.active := hWF.2.2.2.2.2.2.1 wl hregmem
  have hcreated := created_true_of_mem_active hWF hact
  have hWFt : WF { s with trace := s.trace ++ [Event.leaveIbss wl.idx wl.nodeId] } :=
    WF_trace _ hWF
  have hmemt : ∃ e2 ∈ ({ s with trace := s.trace ++ [Event.leaveIbss wl.idx wl.nodeId] }
      : NetState).ibss, wl ∈ e2.stations := ⟨e, he, hw⟩
  obtain ⟨b, hbshape⟩ := remove_station_from_ibss_shape wl
    { s with trace := s.trace ++ [Event.leaveIbss wl.idx wl.nodeId] }
  have hWFmid : WF (WirelessTopologyMap.remove_station_from_ibss wl
      { s with trace := s.trace ++ [Event.leaveIbss wl.idx wl.nodeId] }) :=
    WF_registry_shrink hWFt hcreated (by rw [hbshape]) (by rw [hbshape]) (by rw [hbshape])
      (registry_rsi_sublist wl _)
  have hcnt := registry_rsi_count hmemt
  have hnotmem : wl ∉ registryWlans (WirelessTopologyMap.remove_station_from_ibss wl
      { s with trace := s.trace ++ [Event.leaveIbss wl.idx wl.nodeId] }) := by
    intro hx
    have h1 : 0 < (registryWlans (WirelessTopologyMap.remove_station_from_ibss wl
        { s with trace := s.trace ++ [Event.leaveIbss wl.idx wl.nodeId] })).count wl :=
      List.count_pos_iff.mpr hx
    have h2 := List.nodup_iff_count_le_one.mp hWFt.2.2.2.2.2.1 wl
    omega
  have hactmid : wl ∈ (WirelessTopologyMap.remove_station_from_ibss wl
      { s with trace := s.trace ++ [Event.leaveIbss wl.idx wl.nodeId] }).active := by
    rw [hbshape]; exact hact
  obtain ⟨s', hok, hWF', hb', hib', -, -, -, -⟩ := free_ok_WF hWFmid hactmid hnotmem
  refine ⟨s', ?_, hWF', ?_⟩
  · rw [WirelessInterface.leave_ibss]
    simp only [pyTruthy, Bool.true_eq_false, if_false]
    exact hok
  · rw [hb', hbshape]

theorem get_bss_stations_some {wl : Wlan} {s : NetState} {cur : List Wlan}
    (h : WirelessTopologyMap.get_bss_stations wl s = some cur) :
    ∃ e ∈ s.bss, e.ap = wl ∧ cur = e.stations := by
  rw [WirelessTopologyMap.get_bss_stations] at h
  rcases hf : s.bss.find? (fun e => e.ap == wl) with _ | e
  · rw [hf] at h; simp at h
  · rw [hf] at h
    simp only [Option.map_some', Option.some.injEq] at h
    refine ⟨e, List.mem_of_find?_eq_some hf, ?_, h.symm⟩
    have := List.find?_some hf
    simpa using this

theorem delete_ap_loop_exists {wl : Wlan} :
    ∀ (fuel : Nat) {i : Nat} {s : NetState}, WF s →
      ∃ s', WirelessInterface.delete_ap_loop wl fuel i s = .ok ((), s')
        ∧ WF s' ∧ s'.bss.map BssEntry.ap = s.bss.map BssEntry.ap ∧ s'.ibss = s.ibss := by
  intro fuel
  induction fuel with
  | zero =>
      intro i s hWF
      exact ⟨s, rfl, hWF, rfl, rfl⟩
  | succ f ih =>
      intro i s hWF
      rcases hg : WirelessTopologyMap.get_bss_stations wl s with _ | cur
      · refine ⟨s, ?_, hWF, rfl, rfl⟩
        rw [WirelessInterface.delete_ap_loop, hg]
      · by_cases hi : i < cur.length
        · obtain ⟨e, he, hap, hcur⟩ := get_bss_stations_some hg
          have hstmem : cur.get ⟨i, hi⟩ ∈ e.stations := by
            rw [← hcur]
            exact List.get_mem cur i hi
          obtain ⟨sm, hok, hWFm, hmap, hib⟩ := leave_bss_exists hWF ⟨e, he, hstmem⟩
          obtain ⟨s', hok2, hWF', hmap2, hib2⟩ := ih hWFm
          refine ⟨s', ?_, hWF', hmap2.trans hmap, hib2.trans hib⟩
          rw [WirelessInterface.delete_ap_loop, hg]
          dsimp only
          rw [dif_pos hi, hok]
          exact hok2
        · refine ⟨s, ?_, hWF, rfl, rfl⟩
          rw [WirelessInterface.delete_ap_loop, hg]
          dsimp only
          rw [dif_neg hi]

theorem delete_ap_exists {wl : Wlan} {nm : String} {s : NetState} (hWF : WF s)
    (hap : ∃ e ∈ s.bss, e.ap = wl) :
    ∃ s', WirelessInterface.delete_ap wl nm s = .ok ((), s')
      ∧ WF s' ∧ s'.ibss = s.ibss := by
  obtain ⟨e, he, heap⟩ := hap
  rcases hf : s.bss.find? (fun e => e.ap == wl) with _ | e1
  · exfalso
    have := List.find?_eq_none.mp hf e he
    rw [heap] at this
    simp at this
  · have hgs : WirelessTopologyMap.get_bss_stations wl s = some e1.stations := by
      rw [WirelessTopologyMap.get_bss_stations, hf]
      rfl
    obtain ⟨sL, hloop, hWFL, hmapL, hibL⟩ := delete_ap_loop_exists (e1.stations.length + 1)
      (i := 0) hWF
    have hwlmapL : wl ∈ sL.bss.map BssEntry.ap := by
      rw [hmapL]
      exact List.mem_map.mpr ⟨e, he, heap⟩
    obtain ⟨e2, he2, heap2⟩ := List.mem_map.mp hwlmapL
    have hregL : wl ∈ registryWlans sL := by
      rw [show wl = e2.ap from heap2.symm]
      exact mem_registry_of_ap he2
    have hactL : wl ∈ sL.active := hWFL.2.2.2.2.2.2.1 wl hregL
    have hcreatedL := created_true_of_mem_active hWFL hactL
    have hWFmid : WF (WirelessTopologyMap.remove_bss wl sL) :=
      WF_registry_shrink hWFL hcreatedL rfl rfl rfl (registry_remove_bss_sublist wl sL)
    have hcnt := registry_remove_bss_count ⟨e2, he2, heap2⟩
    have hnotmem : wl ∉ registryWlans (WirelessTopologyMap.remove_bss wl sL) := by
      intro hx
      have h1 : 0 < (registryWlans (WirelessTopologyMap.remove_bss wl sL)).count wl :=
        List.count_pos_iff.mpr hx
      have h2 := List.nodup_iff_count_le_one.mp hWFL.2.2.2.2.2.1 wl
      omega
    have hactmid : wl ∈ (WirelessTopologyMap.remove_bss wl sL).active := hactL
    obtain ⟨s', hok, hWF', hb', hib', -, -, -, -⟩ := free_ok_WF hWFmid hactmid hnotmem
    refine ⟨s', ?_, hWF', ?_⟩
    · rw [WirelessInterface.delete_ap]
      simp only [pyTruthy, Bool.true_eq_false, if_false]
      rw [hgs]
      dsimp only
      rw [hloop]
      exact hok
    · rw [hib']
      exact hibL

theorem leave_exists {n : Node} {s : NetState} (hWF : WF s)
    (hpart : WirelessTopologyMap.is_part_of_network n.id s = true) :
    ∃ s', leave_wireless_network n s = .ok ((), s') ∧ WF s' := by
  rw [leave_wireless_network]
  rcases h1 : WirelessTopologyMap.is_ap_q n.id s with _ | intf
  · rcases h2 : WirelessTopologyMap.is_bss_station_q n.id s with _ | intf
    · rcases h3 : WirelessTopologyMap.is_ibss_station_q n.id s with _ | intf
      · exfalso
        rw [WirelessTopologyMap.is_part_of_network, h1, h2, h3] at hpart
        simp at hpart
      · have hm := List.mem_of_find?_eq_some h3
        obtain ⟨e, he, hw⟩ := List.mem_flatMap.mp hm
        obtain ⟨s', hok, hWF', -⟩ := leave_ibss_exists hWF ⟨e, he, hw⟩
        exact ⟨s', hok, hWF'⟩
    · have hm := List.mem_of_find?_eq_some h2
      obtain ⟨e, he, hw⟩ := List.mem_flatMap.mp hm
      obtain ⟨s', hok, hWF', -, -⟩ := leave_bss_exists hWF ⟨e, he, hw⟩
      exact ⟨s', hok, hWF'⟩
  · rw [WirelessTopologyMap.is_ap_q] at h1
    rcases hf : s.bss.find? (fun e => e.ap.nodeId == n.id) with _ | e
    · rw [hf] at h1; simp at h1
    · rw [hf] at h1
      simp only [Option.map_some', Option.some.injEq] at h1
      have hap : ∃ e2 ∈ s.bss, e2.ap = intf :=
        ⟨e, List.mem_of_find?_eq_some hf, h1⟩
      obtain ⟨s', hok, hWF', -⟩ := delete_ap_exists hWF hap
      exact ⟨s', hok, hWF'⟩

theorem check_exists (n : Node) {s : NetState} (hWF : WF s) :
    ∃ s', check_network_and_leave n s = .ok ((), s') ∧ WF s' := by
  rw [check_network_and_leave]
  by_cases hp : WirelessTopologyMap.is_part_of_network n.id s = true
  · rw [if_pos hp]
    exact leave_exists hWF hp
  · rw [if_neg hp]
    exact ⟨s, rfl, hWF⟩

/-!  Well-formedness is preserved by every successful user operation. -/

theorem check_ok_WF {n : Node} {s s1 : NetState} {u : Unit} (hWF : WF s)
    (h : check_network_and_leave n s = .ok (u, s1)) : WF s1 := by
  obtain ⟨s1', hok', hWF'⟩ := check_exists n hWF
  rw [h] at hok'
  simp only [Except.ok.injEq, Prod.mk.injEq] at hok'
  rw [hok'.2]
  exact hWF'

theorem join_bss_loop_WF {apIntf : Wlan} :
    ∀ {nodes : List Node} {s : NetState} {ws : List Wlan} {s' : NetState}, WF s →
      join_bss_loop apIntf nodes s = .ok (ws, s') → WF s' := by
  intro nodes
  induction nodes with
  | nil =>
      intro s ws s' hWF h
      rw [join_bss_loop] at h
      simp only [Except.ok.injEq, Prod.mk.injEq] at h
      rw [← h.2]
      exact hWF
  | cons nd rest ih =>
      intro s ws s' hWF h
      rw [join_bss_loop] at h
      split at h
      · exact absurd h (by simp)
      · rename_i u s1 heqc
        split at h
        · exact absurd h (by simp)
        · rename_i wl s2 hequ
          dsimp only at h
          split at h
          · exact absurd h (by simp)
          · rename_i ws2 s3 heqr
            simp only [Except.ok.injEq, Prod.mk.injEq] at h
            rw [← h.2]
            have hWF1 := check_ok_WF hWF heqc
            obtain ⟨hWF2, hact, hreg, -, -, -, -, -⟩ := use_ok_WF hWF1 hequ
            have hWF3 : WF (WirelessTopologyMap.add_station_to_bss apIntf.nodeId wl s2) :=
              add_station_to_bss_WF hWF2 hact hreg
            exact ih hWF3 heqr

theorem adhoc_join_loop_WF {sd : String} {f : Nat} :
    ∀ {nodes : List Node} {s : NetState} {ws : List Wlan} {s' : NetState}, WF s →
      adhoc_join_loop sd f nodes s = .ok (ws, s') → WF s' := by
  intro nodes
  induction nodes with
  | nil =>
      intro s ws s' hWF h
      rw [adhoc_join_loop] at h
      simp only [Except.ok.injEq, Prod.mk.injEq] at h
      rw [← h.2]
      exact hWF
  | cons nd rest ih =>
      intro s ws s' hWF h
      rw [adhoc_join_loop] at h
      split at h
      · exact absurd h (by simp)
      · rename_i u s1 heqc
        split at h
        · exact absurd h (by simp)
        · rename_i wl s2 hequ
          dsimp only at h
          split at h
          · exact absurd h (by simp)
          · rename_i ws2 s3 heqr
            simp only [Except.ok.injEq, Prod.mk.injEq] at h
            rw [← h.2]
            have hWF1 := check_ok_WF hWF heqc
            obtain ⟨hWF2, hact, hreg, -, -, -, -, -⟩ := use_ok_WF hWF1 hequ
            have hWFt : WF { s2 with trace := s2.trace ++ [Event.joinIbss wl.idx sd f wl.nodeId] } :=
              WF_trace _ hWF2
            have hreg2 : wl ∉ registryWlans { s2 with trace := s2.trace ++ [Event.joinIbss wl.idx sd f wl.nodeId] } := hreg
            have hWF3 : WF (WirelessTopologyMap.add_station_to_ibss sd wl
                { s2 with trace := s2.trace ++ [Event.joinIbss wl.idx sd f wl.nodeId] }) :=
              add_station_to_ibss_WF hWFt hact hreg2
            exact ih hWF3 heqr

theorem create_ap_ok_WF {n : Node} {sd : String} {s : NetState} {wl : Wlan} {s' : NetState}
    (hWF : WF s) (h : create_ap n sd s = .ok (wl, s')) : WF s' := by
  rw [create_ap] at h
  split at h
  · exact absurd h (by simp)
  · rename_i u s1 heqc
    split at h
    · exact absurd h (by simp)
    · rename_i wl2 s2 hequ
      simp only [Except.ok.injEq, Prod.mk.injEq] at h
      obtain ⟨h1, h2⟩ := h
      rw [← h2]
      have hWF1 := check_ok_WF hWF heqc
      obtain ⟨hWF2, hact, hreg, -, -, -, -, -⟩ := use_ok_WF hWF1 hequ
      exact create_bss_WF hWF2 hact hreg

theorem join_bss_ok_WF {nodes : List Node} {target : ApRef} {s : NetState}
    {ws : List Wlan} {s' : NetState} (hWF : WF s)
    (h : join_bss nodes target s = .ok (ws, s')) : WF s' := by
  rw [join_bss.eq_def] at h
  split at h
  · split at h
    · exact absurd h (by simp)
    · rename_i apIntf heq
      split at h
      · exact absurd h (by simp)
      · rename_i ws2 s3 heqr
        simp only [Except.ok.injEq, Prod.mk.injEq] at h
        rw [← h.2]
        exact WF_trace _ (join_bss_loop_WF hWF heqr)
  · split at h
    · exact absurd h (by simp)
    · rename_i apIntf heq
      split at h
      · exact absurd h (by simp)
      · rename_i ws2 s3 heqr
        simp only [Except.ok.injEq, Prod.mk.injEq] at h
        rw [← h.2]
        exact WF_trace _ (join_bss_loop_WF hWF heqr)

theorem join_adhoc_ok_WF {nodes : List Node} {sd : String} {f : Nat} {s : NetState}
    {ws : List Wlan} {s' : NetState} (hWF : WF s)
    (h : join_adhoc_network nodes sd f s = .ok (ws, s')) : WF s' := by
  rw [join_adhoc_network] at h
  split at h
  · exact absurd h (by simp)
  · split at h
    · exact absurd h (by simp)
    · rename_i ws2 s3 heqr
      simp only [Except.ok.injEq, Prod.mk.injEq] at h
      rw [← h.2]
      exact WF_trace _ (adhoc_join_loop_WF hWF heqr)

theorem start_adhoc_ok_WF {nodes : List Node} {sd : String} {f : Nat} {s : NetState}
    {ws : Option (List Wlan)} {s' : NetState} (hWF : WF s)
    (h : start_adhoc_network nodes sd f s = .ok (ws, s')) : WF s' := by
  rw [start_adhoc_network.eq_def] at h
  split at h
  · exact absurd h (by simp)
  · split at h
    · simp only [Except.ok.injEq, Prod.mk.injEq] at h
      rw [← h.2]
      exact hWF
    · rename_i n0 rest
      split at h
      · exact absurd h (by simp)
      · rename_i u s1 heqc
        split at h
        · exact absurd h (by simp)
        · rename_i wl s2 hequ
          dsimp only at h
          split at h
          · exact absurd h (by simp)
          · rename_i ws2 s3 heqr
            simp only [Except.ok.injEq, Prod.mk.injEq] at h
            rw [← h.2]
            have hWF1 := check_ok_WF hWF heqc
            obtain ⟨hWF2, hact, hreg, -, -, -, hcr2, -⟩ := use_ok_WF hWF1 hequ
            have hWFt1 : WF { s2 with trace := s2.trace ++ [Event.joinIbss wl.idx sd f wl.nodeId] } :=
              WF_trace _ hWF2
            have hWFci : WF (WirelessTopologyMap.create_ibss sd
                { s2 with trace := s2.trace ++ [Event.joinIbss wl.idx sd f wl.nodeId] }) :=
              create_ibss_WF hWFt1 hcr2
            have hWFt2 : WF { WirelessTopologyMap.create_ibss sd
                { s2 with trace := s2.trace ++ [Event.joinIbss wl.idx sd f wl.nodeId] } with
                  trace := (WirelessTopologyMap.create_ibss sd
                    { s2 with trace := s2.trace ++ [Event.joinIbss wl.idx sd f wl.nodeId] }).trace
                      ++ [Event.registerIbss sd] } :=
              WF_trace _ hWFci
            have hacts : wl ∈ ({ WirelessTopologyMap.create_ibss sd
                { s2 with trace := s2.trace ++ [Event.joinIbss wl.idx sd f wl.nodeId] } with
                  trace := (WirelessTopologyMap.create_ibss sd
                    { s2 with trace := s2.trace ++ [Event.joinIbss wl.idx sd f wl.nodeId] }).trace
                      ++ [Event.registerIbss sd] } : NetState).active := by
              rw [WirelessTopologyMap.create_ibss]
              exact hact
            have hregs : wl ∉ registryWlans { WirelessTopologyMap.create_ibss sd
                { s2 with trace := s2.trace ++ [Event.joinIbss wl.idx sd f wl.nodeId] } with
                  trace := (WirelessTopologyMap.create_ibss sd
                    { s2 with trace := s2.trace ++ [Event.joinIbss wl.idx sd f wl.nodeId] }).trace
                      ++ [Event.registerIbss sd] } := by
              intro hx
              apply hreg
              have hx2 : wl ∈ registryWlans (WirelessTopologyMap.create_ibss sd
                  { s2 with trace := s2.trace ++ [Event.joinIbss wl.idx sd f wl.nodeId] }) := by
                rw [registryWlans] at hx ⊢
                exact hx
              rw [registry_create_ibss] at hx2
              rw [registryWlans] at hx2 ⊢
              exact hx2
            have hWFadd : WF (WirelessTopologyMap.add_station_to_ibss sd wl
                { WirelessTopologyMap.create_ibss sd
                    { s2 with trace := s2.trace ++ [Event.joinIbss wl.idx sd f wl.nodeId] } with
                  trace := (WirelessTopologyMap.create_ibss sd
                    { s2 with trace := s2.trace ++ [Event.joinIbss wl.idx sd f wl.nodeId] }).trace
                      ++ [Event.registerIbss sd] }) :=
              add_station_to_ibss_WF hWFt2 hacts hregs
            have hWFsl := WF_trace ((WirelessTopologyMap.add_station_to_ibss sd wl
              { WirelessTopologyMap.create_ibss sd
                { s2 with trace := s2.trace ++ [Event.joinIbss wl.idx sd f wl.nodeId] } with
                  trace := (WirelessTopologyMap.create_ibss sd
                    { s2 with trace := s2.trace ++ [Event.joinIbss wl.idx sd f wl.nodeId] }).trace
                      ++ [Event.registerIbss sd] }).trace ++ [Event.sleep 20]) hWFadd
            exact WF_trace _ (adhoc_join_loop_WF hWFsl heqr)

theorem runOp_WF {s : NetState} {op : WOp} {s' : NetState} (hWF : WF s)
    (h : runOp s op = .ok s') : WF s' := by
  rcases op with ⟨n, sd⟩ | ⟨ns, t⟩ | ⟨ns, sd, f⟩ | ⟨ns, sd, f⟩ <;> rw [runOp] at h
  · rcases hr : create_ap n sd s with e | ⟨wl, s2⟩
    · rw [hr] at h; simp [Except.map] at h
    · rw [hr] at h
      simp only [Except.map, Except.ok.injEq] at h
      rw [← h]
      exact create_ap_ok_WF hWF hr
  · rcases hr : join_bss ns t s with e | ⟨ws, s2⟩
    · rw [hr] at h; simp [Except.map] at h
    · rw [hr] at h
      simp only [Except.map, Except.ok.injEq] at h
      rw [← h]
      exact join_bss_ok_WF hWF hr
  · rcases hr : start_adhoc_network ns sd f s with e | ⟨ws, s2⟩
    · rw [hr] at h; simp [Except.map] at h
    · rw [hr] at h
      simp only [Except.map, Except.ok.injEq] at h
      rw [← h]
      exact start_adhoc_ok_WF hWF hr
  · rcases hr : join_adhoc_network ns sd f s with e | ⟨ws, s2⟩
    · rw [hr] at h; simp [Except.map] at h
    · rw [hr] at h
      simp only [Except.map, Except.ok.injEq] at h
      rw [← h]
      exact join_adhoc_ok_WF hWF hr

theorem runOps_WF :
    ∀ {ops : List WOp} {s s' : NetState}, WF s → runOps s ops = .ok s' → WF s' := by
  intro ops
  induction ops with
  | nil =>
      intro s s' hWF h
      rw [runOps] at h
      simp only [Except.ok.injEq] at h
      rw [← h]
      exact hWF
  | cons op rest ih =>
      intro s s' hWF h
      rw [runOps] at h
      rcases hr : runOp s op with e | s2
      · rw [hr] at h; simp at h
      · rw [hr] at h
        exact ih (runOp_WF hWF hr) h

/-!  Claim C4. -/

/-- C4: after every sequence of successful `create_ap`, `join_bss`,
`start_adhoc_network` and `join_adhoc_network` operations from a fresh pool,
the interfaces handed to callers and not yet freed (the ghost `active` list)
occupy pairwise-distinct radio pool indices, and the number of pool slots
marked used equals the number of these currently-active interfaces. -/
theorem c4_pool_invariant (ops : List WOp) (c : Nat) (s : NetState)
    (h : runOps (freshState c) ops = .ok s) :
    (s.active.map Wlan.idx).Nodup ∧ s.used.count 1 = s.active.length := by
  have hWF := runOps_WF (freshState_WF c) h
  constructor
  · exact List.pairwise_map.mpr hWF.1
  · exact hWF.2.2.2.2.1

/-- Witness for C4: the concrete two-operation run (create an AP, join one
station by SSID) from a fresh pool of size two. -/
theorem c4_witness :
    (exStateC4.active.map Wlan.idx).Nodup
      ∧ exStateC4.used.count 1 = exStateC4.active.length :=
  c4_pool_invariant exOpsC4 2 exStateC4 rfl

theorem find?_split {α : Type} {p : α → Bool} :
    ∀ {l : List α} {x : α}, l.find? p = some x →
      ∃ pre post, l = pre ++ x :: post ∧ (∀ y ∈ pre, p y = false) := by
  intro l
  induction l with
  | nil => intro x h; simp at h
  | cons a t ih =>
      intro x h
      rcases hp : p a with _ | _
      · rw [List.find?_cons_of_neg _ (by simp [hp])] at h
        obtain ⟨pre, post, hl, hpre⟩ := ih h
        refine ⟨a :: pre, post, by rw [hl]; rfl, ?_⟩
        intro y hy
        rcases List.mem_cons.mp hy with h' | h'
        · rw [h']; exact hp
        · exact hpre y h'
      · rw [List.find?_cons_of_pos _ (by simp [hp])] at h
        simp only [Option.some.injEq] at h
        subst h
        exact ⟨[], t, rfl, by simp⟩

/-!  Claim C6. -/

/-- C6: a node that is currently a station of an IBSS can join an existing
BSS with no error: the auto-leave policy first removes the node's interface
from its IBSS entry (deleting the entry when the node was its last member,
under the unique-SSID data-model invariant) and frees its radio slot, and
the join then installs a fresh interface in the node and registers it as a
station of the target access point's BSS entry. -/
theorem c6_join_bss_from_ibss (s : NetState) (node apNode : Node)
    (stIntf apIntf : Wlan) (preI postI : List IbssEntry) (eI : IbssEntry)
    (hWF : WF s)
    (hA : WirelessTopologyMap.is_ap_q node.id s = none)
    (hB : WirelessTopologyMap.is_bss_station_q node.id s = none)
    (hC : WirelessTopologyMap.is_ibss_station_q node.id s = some stIntf)
    (hSplit : s.ibss = preI ++ eI :: postI)
    (hMem : stIntf ∈ eI.stations)
    (hPre : ∀ e ∈ preI, ∀ w ∈ e.stations, w.nodeId ≠ node.id)
    (hPreSsid : ∀ e ∈ preI, e.ssid ≠ eI.ssid)
    (hPostSsid : ∀ e ∈ postI, e.ssid ≠ eI.ssid)
    (hAp : WirelessTopologyMap.is_ap_q apNode.id s = some apIntf) :
    ∃ s1 wl s',
      check_network_and_leave node s = .ok ((), s1)
      ∧ s1.used[stIntf.idx]? = some 0
      ∧ (∀ e ∈ s1.ibss, stIntf ∉ e.stations)
      ∧ (eI.stations.erase stIntf = [] → ∀ e ∈ s1.ibss, e.ssid ≠ eI.ssid)
      ∧ (eI.stations.erase stIntf ≠ [] →
          ∃ e ∈ s1.ibss, e.ssid = eI.ssid ∧ e.stations = eI.stations.erase stIntf)
      ∧ join_bss [node] (ApRef.byNode apNode) s = .ok ([wl], s')
      ∧ wl.nodeId = node.id
      ∧ ∃ e ∈ s'.bss, e.ap = apIntf ∧ wl ∈ e.stations := by
  have heIin : eI ∈ s.ibss := by rw [hSplit]; simp
  have hstnode : stIntf.nodeId = node.id := by
    rw [WirelessTopologyMap.is_ibss_station_q] at hC
    have := List.find?_some hC
    simpa using this
  have hstreg : stIntf ∈ registryWlans s := mem_registry_of_ibss_station heIin hMem
  have hact : stIntf ∈ s.active := hWF.2.2.2.2.2.2.1 stIntf hstreg
  have hcreated : s.created = true := created_true_of_mem_active hWF hact
  have hidxlt : stIntf.idx < s.used.length := (hWF.2.1 stIntf hact).1
  have hnodupReg := hWF.2.2.2.2.2.1
  have hcnt := List.nodup_iff_count_le_one.mp hnodupReg stIntf
  have hcnt_decomp : (registryWlans s).count stIntf
      = (s.bss.flatMap (fun e => e.ap :: e.stations)).count stIntf
        + ((preI.flatMap (fun e => e.stations)).count stIntf
          + (eI.stations.count stIntf
            + (postI.flatMap (fun e => e.stations)).count stIntf)) := by
    rw [registryWlans, hSplit]
    simp only [List.flatMap_append, List.flatMap_cons, List.count_append]
  have heIpos : 0 < eI.stations.count stIntf := List.count_pos_iff.mpr hMem
  have hnotpost : ∀ e ∈ postI, stIntf ∉ e.stations := by
    intro e he hw
    have hmm : stIntf ∈ postI.flatMap (fun e => e.stations) :=
      List.mem_flatMap.mpr ⟨e, he, hw⟩
    have := List.count_pos_iff.mpr hmm
    omega
  have hnoterase : stIntf ∉ eI.stations.erase stIntf := by
    intro hw
    have h1 := List.count_erase_self stIntf eI.stations
    have h2 := List.count_pos_iff.mpr hw
    omega
  have hnotpre : ∀ e ∈ preI, stIntf ∉ e.stations := by
    intro e he hw
    exact hPre e he stIntf hw hstnode
  have hstibss : ({ s with trace := s.trace ++ [Event.leaveIbss stIntf.idx stIntf.nodeId] }
      : NetState).ibss = preI ++ eI :: postI := hSplit
  have hrsi := rsi_spec { s with trace := s.trace ++ [Event.leaveIbss stIntf.idx stIntf.nodeId] }
    stIntf preI postI eI hstibss hMem hnotpre hPreSsid
  have hWFst : WF { s with trace := s.trace ++ [Event.leaveIbss stIntf.idx stIntf.nodeId] } :=
    WF_trace _ hWF
  obtain ⟨bI, hbIshape⟩ := remove_station_from_ibss_shape stIntf
    { s with trace := s.trace ++ [Event.leaveIbss stIntf.idx stIntf.nodeId] }
  have hWFr : WF (WirelessTopologyMap.remove_station_from_ibss stIntf
      { s with trace := s.trace ++ [Event.leaveIbss stIntf.idx stIntf.nodeId] }) :=
    WF_registry_shrink hWFst hcreated (by rw [hbIshape]) (by rw [hbIshape])
      (by rw [hbIshape]) (registry_rsi_sublist stIntf _)
  have hrc := registry_rsi_count (⟨eI, hstibss ▸ heIin, hMem⟩ :
    ∃ e ∈ ({ s with trace := s.trace ++ [Event.leaveIbss stIntf.idx stIntf.nodeId] }
      : NetState).ibss, stIntf ∈ e.stations)
  have hnotregr : stIntf ∉ registryWlans (WirelessTopologyMap.remove_station_from_ibss stIntf
      { s with trace := s.trace ++ [Event.leaveIbss stIntf.idx stIntf.nodeId] }) := by
    intro hx
    have hpos := List.count_pos_iff.mpr hx
    have hcst : (registryWlans { s with trace := s.trace
        ++ [Event.leaveIbss stIntf.idx stIntf.nodeId] }).count stIntf
          = (registryWlans s).count stIntf := rfl
    omega
  have hactr : stIntf ∈ (WirelessTopologyMap.remove_station_from_ibss stIntf
      { s with trace := s.trace ++ [Event.leaveIbss stIntf.idx stIntf.nodeId] }).active := by
    rw [hbIshape]
    exact hact
  obtain ⟨s1, hfok, hWF1, hb1, hib1, ht1, hu1, ha1, hc1⟩ := free_ok_WF hWFr hactr hnotregr
  have hrused : (WirelessTopologyMap.remove_station_from_ibss stIntf
      { s with trace := s.trace ++ [Event.leaveIbss stIntf.idx stIntf.nodeId] }).used
        = s.used := by
    rw [hrsi]; split <;> rfl
  have hrbss : (WirelessTopologyMap.remove_station_from_ibss stIntf
      { s with trace := s.trace ++ [Event.leaveIbss stIntf.idx stIntf.nodeId] }).bss
        = s.bss := by
    rw [hrsi]; split <;> rfl
  have hrcreated : (WirelessTopologyMap.remove_station_from_ibss stIntf
      { s with trace := s.trace ++ [Event.leaveIbss stIntf.idx stIntf.nodeId] }).created
        = s.created := by
    rw [hrsi]; split <;> rfl
  have hribss : (WirelessTopologyMap.remove_station_from_ibss stIntf
      { s with trace := s.trace ++ [Event.leaveIbss stIntf.idx stIntf.nodeId] }).ibss
        = (if eI.stations.erase stIntf = [] then preI ++ postI
           else preI ++ { eI with stations := eI.stations.erase stIntf } :: postI) := by
    rw [hrsi]
    split <;> rfl
  have hpart : WirelessTopologyMap.is_part_of_network node.id s = true := by
    rw [WirelessTopologyMap.is_part_of_network, hA, hB, hC]
    simp
  have hcheck : check_network_and_leave node s = .ok ((), s1) := by
    rw [check_network_and_leave, if_pos hpart, leave_wireless_network, hA]
    dsimp only
    rw [hB]
    dsimp only
    rw [hC]
    dsimp only
    rw [WirelessInterface.leave_ibss]
    simp only [pyTruthy, Bool.true_eq_false, if_false]
    exact hfok
  have hu1' : s1.used[stIntf.idx]? = some 0 := by
    rw [hu1, hrused]
    rw [List.getElem?_set_self]
    exact hidxlt
  have hibss1 : s1.ibss = (if eI.stations.erase stIntf = [] then preI ++ postI
      else preI ++ { eI with stations := eI.stations.erase stIntf } :: postI) :=
    hib1.trans hribss
  have hnost : ∀ e ∈ s1.ibss, stIntf ∉ e.stations := by
    rw [hibss1]
    split
    · intro e he
      rcases List.mem_append.mp he with h' | h'
      · exact hnotpre e h'
      · exact hnotpost e h'
    · intro e he
      rcases List.mem_append.mp he with h' | h'
      · exact hnotpre e h'
      · rcases List.mem_cons.mp h' with h'' | h''
        · rw [h'']
          exact hnoterase
        · exact hnotpost e h''
  have hdel : eI.stations.erase stIntf = [] → ∀ e ∈ s1.ibss, e.ssid ≠ eI.ssid := by
    intro hnil e he
    rw [hibss1, if_pos hnil] at he
    rcases List.mem_append.mp he with h' | h'
    · exact hPreSsid e h'
    · exact hPostSsid e h'
  have hkeep : eI.stations.erase stIntf ≠ [] →
      ∃ e ∈ s1.ibss, e.ssid = eI.ssid ∧ e.stations = eI.stations.erase stIntf := by
    intro hnil
    rw [hibss1, if_neg hnil]
    exact ⟨{ eI with stations := eI.stations.erase stIntf }, by simp, rfl, rfl⟩
  have hc1' : s1.created = true := by
    rw [hc1, hrcreated, hcreated]
  obtain ⟨j, hj⟩ := findFreeIdx_isSome_of_zero hu1'
  have huse : ∃ wl s2, WirelessInterface.use_wireless_interface node.id managedStr
      apIntf.ssid none s1 = .ok (wl, s2) := by
    rw [WirelessInterface.use_wireless_interface, hc1']
    simp only [Bool.true_eq_false, if_false]
    rw [hj]
    dsimp only
    rcases hpk : s1.parked.find? (fun w => w.idx == j) with _ | w0
    · rw [hpk]
      exact ⟨_, _, rfl⟩
    · rw [hpk]
      exact ⟨_, _, rfl⟩
  obtain ⟨wl, s2, huse⟩ := huse
  obtain ⟨hWF2, hact2, hreg2, hrege2, hb2, hib2, hcr2, hnodew⟩ := use_ok_WF hWF1 huse
  have hAp0 := hAp
  rw [WirelessTopologyMap.is_ap_q] at hAp
  rcases hfap : s.bss.find? (fun e => e.ap.nodeId == apNode.id) with _ | eB
  · rw [hfap] at hAp; simp at hAp
  · rw [hfap] at hAp
    simp only [Option.map_some', Option.some.injEq] at hAp
    obtain ⟨preB, postB, hlB, hpreB⟩ := find?_split hfap
    have hfapx := List.find?_some hfap
    have hapid : apIntf.nodeId = apNode.id := by
      rw [← hAp]
      simpa using hfapx
    have hbss2 : s2.bss = preB ++ eB :: postB := by
      rw [hb2, hb1, hrbss, hlB]
    have hupd : updateFirst (fun e => e.ap.nodeId == apIntf.nodeId)
        (fun e => { e with stations := e.stations ++ [wl] }) s2.bss
          = preB ++ { eB with stations := eB.stations ++ [wl] } :: postB := by
      rw [hbss2]
      refine updateFirst_app postB ?_ ?_
      · intro y hy
        rw [hapid]
        exact hpreB y hy
      · rw [hapid]
        exact hfapx
    have hadd : WirelessTopologyMap.add_station_to_bss apIntf.nodeId wl s2
        = { s2 with bss := preB ++ { eB with stations := eB.stations ++ [wl] } :: postB } := by
      rw [WirelessTopologyMap.add_station_to_bss]
      rw [hupd]
    have hloop : join_bss_loop apIntf [node] s
        = .ok ([wl], WirelessTopologyMap.add_station_to_bss apIntf.nodeId wl s2) := by
      rw [join_bss_loop, hcheck]
      dsimp only
      rw [huse]
      dsimp only
      rw [join_bss_loop]
    refine ⟨s1, wl, { WirelessTopologyMap.add_station_to_bss apIntf.nodeId wl s2 with
        trace := (WirelessTopologyMap.add_station_to_bss apIntf.nodeId wl s2).trace
          ++ [Event.sleep 2] },
      hcheck, hu1', hnost, hdel, hkeep, ?_, hnodew, ?_⟩
    · rw [join_bss, hAp0]
      dsimp only
      rw [hloop]
    · rw [hadd]
      refine ⟨{ eB with stations := eB.stations ++ [wl] }, by simp, ?_, by simp⟩
      rw [← hAp]

theorem c6_witness :
    ∃ s1 wl s',
      check_network_and_leave exNodeA exStateC6 = .ok ((), s1)
      ∧ s1.used[exWlanSta.idx]? = some 0
      ∧ (∀ e ∈ s1.ibss, exWlanSta ∉ e.stations)
      ∧ ((⟨exSsidNet, [exWlanSta]⟩ : IbssEntry).stations.erase exWlanSta = [] →
          ∀ e ∈ s1.ibss, e.ssid ≠ (⟨exSsidNet, [exWlanSta]⟩ : IbssEntry).ssid)
      ∧ ((⟨exSsidNet, [exWlanSta]⟩ : IbssEntry).stations.erase exWlanSta ≠ [] →
          ∃ e ∈ s1.ibss, e.ssid = (⟨exSsidNet, [exWlanSta]⟩ : IbssEntry).ssid
            ∧ e.stations = (⟨exSsidNet, [exWlanSta]⟩ : IbssEntry).stations.erase exWlanSta)
      ∧ join_bss [exNodeA] (ApRef.byNode exNodeB) exStateC6 = .ok ([wl], s')
      ∧ wl.nodeId = exNodeA.id
      ∧ ∃ e ∈ s'.bss, e.ap = exWlanAp ∧ wl ∈ e.stations :=
  c6_join_bss_from_ibss exStateC6 exNodeA exNodeB exWlanSta exWlanAp [] []
    ⟨exSsidNet, [exWlanSta]⟩ (by unfold WF; decide) (by decide) (by decide)
    (by decide) (by decide) (by decide) (by decide) (by decide) (by decide)
    (by decide)
